import Mathlib

/-!
# Camlistore GCE deployment tool: `misc/gce/create.go`

A shallow embedding of the one-shot provisioning command.  Go strings are
embedded as `String` (their length is the UTF-8 byte count), the calls to
the vendored oauth / storage / compute clients are answered by an explicit
environment `Env`, and a run produces the list of external effects it
performed together with the way it ended.  Informational log lines are not
recorded; the report of each sub-error of a finished operation is.
-/

namespace Create

/-! ## Go standard library: `unicode`, `strings`, `strconv`, `fmt` -/

/-- Go `unicode.IsSpace`: the Latin-1 spaces and the other code points with
the Unicode White_Space property. -/
def unicodeIsSpace (c : Char) : Bool :=
  c.toNat ∈ [0x09, 0x0a, 0x0b, 0x0c, 0x0d, 0x20, 0x85, 0xa0,
    0x1680, 0x2028, 0x2029, 0x202f, 0x205f, 0x3000]
    || (0x2000 ≤ c.toNat && c.toNat ≤ 0x200a)

/-- Go `strings.TrimSpace`: drops leading and trailing white space. -/
def stringsTrimSpace (s : String) : String :=
  ⟨((s.data.dropWhile unicodeIsSpace).reverse.dropWhile unicodeIsSpace).reverse⟩

/-- Left-to-right scan of `strings.Replace` for a non-empty `old`: `skip`
counts the characters of a match that are still to be dropped. -/
def replaceFrom (old new : List Char) : Nat → List Char → List Char
  | _, [] => []
  | skip + 1, _ :: cs => replaceFrom old new skip cs
  | 0, c :: cs =>
    if old.isPrefixOf (c :: cs) then new ++ replaceFrom old new (old.length - 1) cs
    else c :: replaceFrom old new 0 cs

/-- Scan of `strings.Replace` for an empty `old`: it matches before every
character and at the end of the text. -/
def replaceEmpty (new : List Char) : List Char → List Char
  | [] => new
  | c :: cs => new ++ c :: replaceEmpty new cs

/-- Go `strings.Replace(s, old, new, -1)`: every non-overlapping occurrence
of `old` in `s`, found left to right, is replaced by `new`. -/
def stringsReplaceAll (s old new : String) : String :=
  if old.data = [] then ⟨replaceEmpty new.data s.data⟩
  else ⟨replaceFrom old.data new.data 0 s.data⟩

/-- Go `strings.Contains(s, substr)`. -/
def stringsContains (s substr : String) : Prop :=
  substr.data <:+: s.data

instance (s substr : String) : Decidable (stringsContains s substr) :=
  inferInstanceAs (Decidable (substr.data <:+: s.data))

/-- Go `strings.HasPrefix(s, pfx)`. -/
def stringsHasPrefix (s pfx : String) : Prop :=
  pfx.data <+: s.data

instance (s pfx : String) : Decidable (stringsHasPrefix s pfx) :=
  inferInstanceAs (Decidable (pfx.data <+: s.data))

/-- Go `strconv.Itoa`: decimal rendering of an `int`. -/
def strconvItoa (i : Int) : String :=
  if i < 0 then "-" ++ Nat.repr i.natAbs else Nat.repr i.toNat

/-- Go `len` of a string: its number of bytes. -/
def len (s : String) : Nat :=
  s.utf8ByteSize

/-! ## Types of the vendored storage and compute clients

Only the fields the program reads or writes are kept; the Go field `Type`
is spelled `Type_`. -/

/-- The `storage.Bucket` record. -/
structure Bucket where
  Id : String
  Name : String
deriving DecidableEq

/-- The `compute.AttachedDiskInitializeParams` record. -/
structure AttachedDiskInitializeParams where
  DiskName : String
  SourceImage : String
  DiskSizeGb : Int
deriving DecidableEq

/-- The `compute.AttachedDisk` record. -/
structure AttachedDisk where
  AutoDelete : Bool
  Boot : Bool
  Type_ : String
  InitializeParams : AttachedDiskInitializeParams
deriving DecidableEq

/-- The `compute.Tags` record. -/
structure Tags where
  Items : List String
deriving DecidableEq

/-- The `compute.MetadataItems` record. -/
structure MetadataItems where
  Key : String
  Value : String
deriving DecidableEq

/-- The `compute.Metadata` record. -/
structure Metadata where
  Items : List MetadataItems
deriving DecidableEq

/-- The `compute.AccessConfig` record. -/
structure AccessConfig where
  Type_ : String
  Name : String
deriving DecidableEq

/-- The `compute.NetworkInterface` record. -/
structure NetworkInterface where
  AccessConfigs : List AccessConfig
  Network : String
deriving DecidableEq

/-- The `compute.ServiceAccount` record. -/
structure ServiceAccount where
  Email : String
  Scopes : List String
deriving DecidableEq

/-- The `compute.Instance` record. -/
structure Instance where
  Name : String
  Description : String
  MachineType : String
  Disks : List AttachedDisk
  Tags : Tags
  Metadata : Metadata
  NetworkInterfaces : List NetworkInterface
  ServiceAccounts : List ServiceAccount
deriving DecidableEq

/-- One entry of `op.Error.Errors`.  The program only prints it, so it is
kept as its printed form. -/
abbrev OperationErrorErrors := String

/-- The `compute.OperationError` record, the target of `op.Error`. -/
structure OperationError where
  Errors : List OperationErrorErrors
deriving DecidableEq

/-- The `compute.Operation` record; `Error = none` is Go's `op.Error == nil`. -/
structure Operation where
  Name : String
  Status : String
  Error : Option OperationError
deriving DecidableEq

/-- The `oauth.Config` record. -/
structure OauthConfig where
  ClientId : String
  ClientSecret : String
  Scope : String
  AuthURL : String
  TokenURL : String
  RedirectURL : String
deriving DecidableEq

/-- An `oauth.Token`, kept opaque. -/
abbrev Token := String

/-! ## Environment, effects and outcomes -/

/-- What `ioutil.ReadFile` answers: the contents, an error for which
`os.IsNotExist` holds, or any other error. -/
inductive ReadFileResult where
  | ok (slurp : String)
  | notExist (err : String)
  | failed (err : String)
deriving DecidableEq

/-- One move of the Go scheduler among the bucket-creating goroutines: the
goroutine of the bucket `name` sends its `Buckets.Insert`, or the goroutine
of `name`, having sent it, gets the answer. -/
inductive Move where
  | send (name : String)
  | answer (name : String)
deriving DecidableEq

/-- The command-line flags and the answers of the outside world. -/
structure Env where
  /-- flag `--project` -/
  proj : String
  /-- flag `--zone` -/
  zone : String
  /-- flag `--machinetype` -/
  mach : String
  /-- flag `--instance_name` -/
  instName : String
  /-- flag `--ssh_public_key` -/
  sshPub : String
  /-- flag `--help` -/
  help : Bool
  /-- constant `compute.DevstorageFull_controlScope` of the vendored client -/
  DevstorageFull_controlScope : String
  /-- constant `compute.ComputeScope` of the vendored client -/
  ComputeScope : String
  /-- the file system, as seen by `ioutil.ReadFile` -/
  ioutilReadFile : String → ReadFileResult
  /-- `tokenCache.Token()` -/
  cachedToken : Except String Token
  /-- the line typed at the `Enter auth code:` prompt -/
  stdinLine : String
  /-- `tr.Exchange(authCode)` -/
  exchange : OauthConfig → String → Except String Token
  /-- `storageService.Buckets.List(proj).Do()` -/
  bucketsList : Except String (List Bucket)
  /-- `storageService.Buckets.Insert(proj, bucket).Do()` -/
  bucketsInsert : Bucket → Except String Bucket
  /-- the interleaving of the bucket-creating goroutines, as far as the
  scheduler decides it; see `runGoroutines` -/
  schedule : List Move
  /-- `computeService.Instances.Insert(proj, zone, instance).Do()` -/
  instancesInsert : Instance → Except String Operation
  /-- the successive answers of `computeService.ZoneOperations.Get(...).Do()` -/
  zoneOperationsGet : List (Except String Operation)
  /-- `computeService.Instances.Get(proj, zone, instName).Do()` -/
  instancesGet : Except String Instance

/-- The external effects recorded along a run, in program order. -/
inductive Event where
  | readFile (v : String)
  | tokenExchange (config : OauthConfig) (authCode : String)
  | putToken (cacheFile : String) (token : Token)
  | bucketsList (proj : String)
  | bucketsInsert (proj : String) (bucket : Bucket)
  | instancesInsert (proj zone : String) (inst : Instance)
  | sleep (seconds : Nat)
  | zoneOperationsGet (proj zone opName : String)
  | logOpError (operr : OperationErrorErrors)
  | instancesGet (proj zone instName : String)
deriving DecidableEq

/-- The `log.Fatalf` sites of the program. -/
inductive Fatal where
  | fileDoesNotExist (v : String)
  | errorReadingFile (v err : String)
  | exchangeFailed (err : String)
  | cloudConfigTooLarge (length limit : Nat)
  | listBucketsFailed (err : String)
  | createBucketFailed (name err : String)
  | createInstanceFailed (err : String)
  | getOpFailed (opName err : String)
  | failedToStart
  | unknownStatus (status : String) (op : Operation)
  | getInstanceFailed (err : String)
deriving DecidableEq

/-- How a run stops before `main` returns: a `log.Fatalf`, or the scripted
answers of `ZoneOperations.Get` ran out while the loop was still polling. -/
inductive Halt where
  | fatal (f : Fatal)
  | waiting
deriving DecidableEq

/-- How `main` returns. -/
inductive Exit where
  | helpPrinted
  | missingProject
  | created (inst : Instance)
deriving DecidableEq

/-- A computation of the program: the effects performed so far and either a
value or the reason the run stopped. -/
structure Run (α : Type) where
  trace : List Event
  result : Except Halt α

/-- A computation without effects. -/
def Run.ret {α : Type} (a : α) : Run α :=
  ⟨[], .ok a⟩

/-- Sequencing: the second computation runs only if the first did not stop. -/
def Run.andThen {α β : Type} (m : Run α) (f : α → Run β) : Run β :=
  match m.result with
  | .error h => ⟨m.trace, .error h⟩
  | .ok a => ⟨m.trace ++ (f a).trace, (f a).result⟩

instance : Monad Run where
  pure := Run.ret
  bind := Run.andThen

/-- Performs one external effect. -/
def emit (e : Event) : Run Unit :=
  ⟨[e], .ok ()⟩

/-- Go `log.Fatalf`: the process exits. -/
def fatalf {α : Type} (f : Fatal) : Run α :=
  ⟨[], .error (.fatal f)⟩

/-! ## The program -/

def clientIdDat : String := "client-id.dat"

def clientSecretDat : String := "client-secret.dat"

/-- Go `readFile`. -/
def readFile (env : Env) (v : String) : Run String := do
  emit (.readFile v)
  match env.ioutilReadFile v with
  | .notExist _ => fatalf (.fileDoesNotExist v)
  | .failed err => fatalf (.errorReadingFile v err)
  | .ok slurp => pure (stringsTrimSpace slurp)

/-- Go `innodbBufferPoolSize`: the MySQL InnoDB buffer pool size in bytes
as a function of the GCE machine type. -/
def innodbBufferPoolSize (machType : String) : Nat :=
  if machType = "f1-micro" then 32 <<< 20
  else if machType = "g1-small" then 64 <<< 20
  else 128 <<< 20

/-- The cloud-config template literal of `main`. -/
def cloudConfigTemplate : String :=
  "#cloud-config\n" ++
  "write_files:\n" ++
  "  - path: /var/lib/camlistore/tmp/README\n" ++
  "    permissions: 0644\n" ++
  "    content: |\n" ++
  "      This is the Camlistore /tmp directory.\n" ++
  "  - path: /var/lib/camlistore/mysql/README\n" ++
  "    permissions: 0644\n" ++
  "    content: |\n" ++
  "      This is the Camlistore MySQL data directory.\n" ++
  "coreos:\n" ++
  "  units:\n" ++
  "    - name: cam-journal-gatewayd.service\n" ++
  "      content: |\n" ++
  "        [Unit]\n" ++
  "        Description=Journal Gateway Service\n" ++
  "        Requires=cam-journal-gatewayd.socket\n" ++
  "        \n" ++
  "        [Service]\n" ++
  "        ExecStart=/usr/lib/systemd/systemd-journal-gatewayd\n" ++
  "        User=systemd-journal-gateway\n" ++
  "        Group=systemd-journal-gateway\n" ++
  "        SupplementaryGroups=systemd-journal\n" ++
  "        PrivateTmp=yes\n" ++
  "        PrivateDevices=yes\n" ++
  "        PrivateNetwork=yes\n" ++
  "        ProtectSystem=full\n" ++
  "        ProtectHome=yes\n" ++
  "        \n" ++
  "        [Install]\n" ++
  "        Also=cam-journal-gatewayd.socket\n" ++
  "    - name: cam-journal-gatewayd.socket\n" ++
  "      command: start\n" ++
  "      content: |\n" ++
  "        [Unit]\n" ++
  "        Description=Journal Gateway Service Socket\n" ++
  "        \n" ++
  "        [Socket]\n" ++
  "        ListenStream=/run/camjournald.sock\n" ++
  "        \n" ++
  "        [Install]\n" ++
  "        WantedBy=sockets.target\n" ++
  "    - name: mysql.service\n" ++
  "      command: start\n" ++
  "      content: |\n" ++
  "        [Unit]\n" ++
  "        Description=MySQL\n" ++
  "        After=docker.service\n" ++
  "        Requires=docker.service\n" ++
  "        \n" ++
  "        [Service]\n" ++
  "        ExecStartPre=/usr/bin/docker run --rm -v /opt/bin:/opt/bin ibuildthecloud/systemd-docker\n" ++
  "        ExecStart=/opt/bin/systemd-docker run --rm --name %n -v /var/lib/camlistore/mysql:/mysql -e INNODB_BUFFER_POOL_SIZE=NNN camlistore/mysql\n" ++
  "        RestartSec=1s\n" ++
  "        Restart=always\n" ++
  "        Type=notify\n" ++
  "        NotifyAccess=all\n" ++
  "        \n" ++
  "        [Install]\n" ++
  "        WantedBy=multi-user.target\n" ++
  "    - name: camlistored.service\n" ++
  "      command: start\n" ++
  "      content: |\n" ++
  "        [Unit]\n" ++
  "        Description=Camlistore\n" ++
  "        After=docker.service\n" ++
  "        Requires=docker.service mysql.service\n" ++
  "        \n" ++
  "        [Service]\n" ++
  "        ExecStartPre=/usr/bin/docker run --rm -v /opt/bin:/opt/bin ibuildthecloud/systemd-docker\n" ++
  "        ExecStart=/opt/bin/systemd-docker run --rm -p 80:80 -p 443:443 --name %n -v /run/camjournald.sock:/run/camjournald.sock -v /var/lib/camlistore/tmp:/tmp --link=mysql.service:mysqldb camlistore/camlistored\n" ++
  "        RestartSec=1s\n" ++
  "        Restart=always\n" ++
  "        Type=notify\n" ++
  "        NotifyAccess=all\n" ++
  "        \n" ++
  "        [Install]\n" ++
  "        WantedBy=multi-user.target\n"

/-- The text `cloudConfig` after the `strings.Replace` of `main`. -/
def cloudConfigFor (mach : String) : String :=
  stringsReplaceAll cloudConfigTemplate "INNODB_BUFFER_POOL_SIZE=NNN"
    ("INNODB_BUFFER_POOL_SIZE=" ++ strconvItoa (innodbBufferPoolSize mach))

/-- The text `cloudConfig` after the `strings.Replace` when the buffer pool
size is `v`; `cloudConfigFor mach` is `renderWith (innodbBufferPoolSize mach)`. -/
def renderWith (v : Nat) : String :=
  stringsReplaceAll cloudConfigTemplate "INNODB_BUFFER_POOL_SIZE=NNN"
    ("INNODB_BUFFER_POOL_SIZE=" ++ strconvItoa v)

/-- The constant `maxCloudConfig` of `main`. -/
def maxCloudConfig : Nat := 32 <<< 10

/-- The size check of `main` on `cloudConfig`. -/
def checkCloudConfig (cloudConfig : String) : Run Unit :=
  if len cloudConfig > maxCloudConfig then
    fatalf (.cloudConfigTooLarge (len cloudConfig) maxCloudConfig)
  else pure ()

/-- The text `fmt.Sprintf("\nssh_authorized_keys:\n    - %s\n", key)`. -/
def sshAuthorizedKeys (key : String) : String :=
  "\nssh_authorized_keys:\n    - " ++ key ++ "\n"

/-- The optional append of the ssh key block to `cloudConfig`. -/
def appendSSHKey (env : Env) (cloudConfig : String) : Run String :=
  if env.sshPub ≠ "" then do
    let key := stringsTrimSpace (← readFile env env.sshPub)
    pure (cloudConfig ++ sshAuthorizedKeys key)
  else pure cloudConfig

def blobBucket (proj : String) : String := proj ++ "-camlistore-blobs"

def configBucket (proj : String) : String := proj ++ "-camlistore-config"

/-- A Go `map[string]bool` whose values are all `true`, as the list of its
keys; `mapSet` is the assignment `m[k] = true`. -/
def mapSet (m : List String) (k : String) : List String :=
  if k ∈ m then m else m ++ [k]

/-- Go `delete(m, k)` on the key list. -/
def mapDelete (m : List String) (k : String) : List String :=
  m.filter (fun x => x ≠ k)

/-- The map literal `needBucket` of `main`. -/
def needBucket (proj : String) : List String :=
  mapSet (mapSet [] (blobBucket proj)) (configBucket proj)

/-- The map `needBucket` after the loop over `buckets.Items`. -/
def needBucketAfter (proj : String) (items : List Bucket) : List String :=
  items.foldl (fun m it => mapDelete m it.Name) (needBucket proj)

/-- The `Buckets.Insert` call made by the goroutine of the bucket `name`. -/
def bucketInsertCall (env : Env) (name : String) : Event :=
  .bucketsInsert env.proj { Id := name, Name := name }

/-- Every goroutine of `names` sends its `Buckets.Insert`. -/
def sendAll (env : Env) : List String → Run Unit
  | [] => pure ()
  | name :: rest => do
    emit (bucketInsertCall env name)
    sendAll env rest

/-- Every goroutine of `names` gets its answer, one after the other: an
error is the `log.Fatalf` of that goroutine, which exits the process. -/
def answerAll (env : Env) : List String → Run Unit
  | [] => pure ()
  | name :: rest =>
    match env.bucketsInsert { Id := name, Name := name } with
    | .error err => fatalf (.createBucketFailed name err)
    | .ok _ => answerAll env rest

/-- The goroutines started by the loop `for name := range needBucket`, up to
the return of `waitBucket.Wait()`.  `pending` are the goroutines that have
not sent their `Buckets.Insert` yet, `inflight` those that have sent it and
have not got the answer.  The scheduler moves one goroutine at a time, in
any order: a `send` for a pending goroutine issues its call, an `answer` for
a goroutine in flight either ends it or, on an error, exits the process with
the other goroutines where they are; a move for a goroutine that cannot make
it is skipped.  When the scheduler has no more to say, the goroutines left
all send and then get their answers. -/
def runGoroutines (env : Env) : List Move → List String → List String → Run Unit
  | [], pending, inflight => do
    sendAll env pending
    answerAll env (inflight ++ pending)
  | .send name :: sched, pending, inflight =>
    if name ∈ pending then do
      emit (bucketInsertCall env name)
      runGoroutines env sched (pending.erase name) (inflight ++ [name])
    else runGoroutines env sched pending inflight
  | .answer name :: sched, pending, inflight =>
    if name ∈ inflight then
      match env.bucketsInsert { Id := name, Name := name } with
      | .error err => fatalf (.createBucketFailed name err)
      | .ok _ => runGoroutines env sched pending (inflight.erase name)
    else runGoroutines env sched pending inflight

/-- The loop `for name := range needBucket` with its goroutines and the
final `waitBucket.Wait()`: one goroutine per key, run concurrently. -/
def createBuckets (env : Env) (names : List String) : Run Unit :=
  runGoroutines env env.schedule names []

/-- The bucket part of `main`: list, reconcile, create what is missing. -/
def ensureBuckets (env : Env) : Run Unit := do
  emit (.bucketsList env.proj)
  match env.bucketsList with
  | .error err => fatalf (.listBucketsFailed err)
  | .ok items =>
    let need := needBucketAfter env.proj items
    if need.length > 0 then createBuckets env need else pure ()

/-- The constant `localMySQL` of `main`. -/
def localMySQL : Bool := false

/-- The `compute.Instance` value built by `main`. -/
def buildInstance (env : Env) (cloudConfig : String) : Instance :=
  let pfx := "https://www.googleapis.com/compute/v1/projects/" ++ env.proj
  let imageURL := "https://www.googleapis.com/compute/v1/projects/coreos-cloud/global/images/coreos-alpha-402-2-0-v20140807"
  let machType := pfx ++ "/zones/" ++ env.zone ++ "/machineTypes/" ++ env.mach
  let inst : Instance :=
    { Name := env.instName
      Description := "Camlistore server"
      MachineType := machType
      Disks := [
        { AutoDelete := true
          Boot := true
          Type_ := "PERSISTENT"
          InitializeParams :=
            { DiskName := env.instName ++ "-coreos-stateless-pd"
              SourceImage := imageURL
              DiskSizeGb := 0 } }]
      Tags := { Items := ["http-server", "https-server"] }
      Metadata := { Items := [
        { Key := "camlistore-username", Value := "test" },
        { Key := "camlistore-password", Value := "insecure" },
        { Key := "camlistore-blob-bucket", Value := "gs://" ++ blobBucket env.proj },
        { Key := "camlistore-config-bucket", Value := "gs://" ++ configBucket env.proj },
        { Key := "user-data", Value := cloudConfig }] }
      NetworkInterfaces := [
        { AccessConfigs := [{ Type_ := "ONE_TO_ONE_NAT", Name := "External NAT" }]
          Network := pfx ++ "/global/networks/default" }]
      ServiceAccounts := [
        { Email := "default"
          Scopes := [
            env.DevstorageFull_controlScope,
            env.ComputeScope,
            "https://www.googleapis.com/auth/sqlservice",
            "https://www.googleapis.com/auth/sqlservice.admin"] }] }
  if localMySQL then
    { inst with Disks := inst.Disks ++ [
        { AutoDelete := false
          Boot := false
          Type_ := "PERSISTENT"
          InitializeParams :=
            { DiskName := "camlistore-mysql-index-pd"
              SourceImage := ""
              DiskSizeGb := 4 } }] }
  else inst

/-- Reports every sub-error of a finished operation: the loop
`for _, operr := range op.Error.Errors`. -/
def logOpErrors : List OperationErrorErrors → Run Unit
  | [] => pure ()
  | operr :: rest => do
    emit (.logOpError operr)
    logOpErrors rest

/-- The loop `OpLoop` of `main`, run against the scripted answers of
`ZoneOperations.Get`. -/
def opLoop (env : Env) (opName : String) : List (Except String Operation) → Run Unit
  | [] => ⟨[], .error .waiting⟩
  | answer :: later => do
    emit (.sleep 2)
    emit (.zoneOperationsGet env.proj env.zone opName)
    match answer with
    | .error err => fatalf (.getOpFailed opName err)
    | .ok op =>
      if op.Status = "PENDING" ∨ op.Status = "RUNNING" then
        opLoop env opName later
      else if op.Status = "DONE" then
        match op.Error with
        | some e => do
          logOpErrors e.Errors
          fatalf .failedToStart
        | none => pure ()
      else fatalf (.unknownStatus op.Status op)

/-- The `oauth.Config` value built by `main`. -/
def oauthConfig (env : Env) (clientId clientSecret : String) : OauthConfig :=
  { ClientId := clientId
    ClientSecret := clientSecret
    Scope := " ".intercalate [
      env.DevstorageFull_controlScope,
      env.ComputeScope,
      "https://www.googleapis.com/auth/sqlservice",
      "https://www.googleapis.com/auth/sqlservice.admin"]
    AuthURL := "https://accounts.google.com/o/oauth2/auth"
    TokenURL := "https://accounts.google.com/o/oauth2/token"
    RedirectURL := "urn:ietf:wg:oauth:2.0:oob" }

/-- The token part of `main`: the cached token or, failing that, the
exchange of the auth code typed by the operator. -/
def obtainToken (env : Env) (config : OauthConfig) : Run Token :=
  match env.cachedToken with
  | .ok token => pure token
  | .error _ => do
    let authCode := stringsTrimSpace env.stdinLine
    emit (.tokenExchange config authCode)
    match env.exchange config authCode with
    | .error err => fatalf (.exchangeFailed err)
    | .ok token => do
      emit (.putToken (env.proj ++ "-token.dat") token)
      pure token

/-- The provisioning part of `main`, from the instance insert on. -/
def provision (env : Env) (cloudConfig : String) : Run Exit := do
  let inst := buildInstance env cloudConfig
  emit (.instancesInsert env.proj env.zone inst)
  match env.instancesInsert inst with
  | .error err => fatalf (.createInstanceFailed err)
  | .ok op =>
    let opName := op.Name
    opLoop env opName env.zoneOperationsGet
    emit (.instancesGet env.proj env.zone env.instName)
    match env.instancesGet with
    | .error err => fatalf (.getInstanceFailed err)
    | .ok inst => pure (.created inst)

/-- The credential part of `main`: the two client files, then the token. -/
def authorize (env : Env) : Run Token := do
  let clientId ← readFile env clientIdDat
  let clientSecret ← readFile env clientSecretDat
  obtainToken env (oauthConfig env clientId clientSecret)

/-- Go `main`. -/
def main (env : Env) : Run Exit :=
  if env.help then pure .helpPrinted
  else if env.proj = "" then pure .missingProject
  else do
    let _token ← authorize env
    let cloudConfig := cloudConfigFor env.mach
    checkCloudConfig cloudConfig
    let cloudConfig ← appendSSHKey env cloudConfig
    ensureBuckets env
    provision env cloudConfig

/-! ## Vocabulary of the statements -/

/-- The effects of `n` rounds of `OpLoop`: a two-second sleep, then one
`ZoneOperations.Get`. -/
def pollEvents (env : Env) (opName : String) (n : Nat) : List Event :=
  (List.replicate n
    [Event.sleep 2, Event.zoneOperationsGet env.proj env.zone opName]).flatten

/-- Recognises a `ZoneOperations.Get` call. -/
def Event.isGetOp : Event → Bool
  | .zoneOperationsGet _ _ _ => true
  | _ => false

/-- Recognises a `Buckets.Insert` call. -/
def Event.isBucketsInsert : Event → Bool
  | .bucketsInsert _ _ => true
  | _ => false

/-- Recognises an `Instances.Insert` call. -/
def Event.isInstancesInsert : Event → Bool
  | .instancesInsert _ _ _ => true
  | _ => false

/-- Recognises an insert call of either service. -/
def Event.isInsert (e : Event) : Bool :=
  e.isBucketsInsert || e.isInstancesInsert

/-- The sub-error printed by a `log.Printf("Error: %+v", operr)` effect. -/
def Event.opError? : Event → Option OperationErrorErrors
  | .logOpError operr => some operr
  | _ => none

/-- The sub-errors an operation carries: those of `op.Error`, none when
`op.Error` is nil. -/
def Operation.subErrors (op : Operation) : List OperationErrorErrors :=
  match op.Error with
  | some e => e.Errors
  | none => []

/-- The run ends in the config-too-large `log.Fatalf`. -/
def Run.tooLarge {α : Type} (r : Run α) : Prop :=
  ∃ n limit, r.result = .error (.fatal (.cloudConfigTooLarge n limit))

/-- The run gets past its credential part: both client files are read and
a token comes from the cache or from the exchange of the typed code. -/
def Env.credentialsOk (env : Env) : Prop :=
  ∃ id secret, env.ioutilReadFile clientIdDat = .ok id ∧
    env.ioutilReadFile clientSecretDat = .ok secret ∧
    ((∃ token, env.cachedToken = .ok token) ∨
     (∃ token, env.exchange
        (oauthConfig env (stringsTrimSpace id) (stringsTrimSpace secret))
        (stringsTrimSpace env.stdinLine) = .ok token))

/-- An example run: project `acme`, the other flags at their defaults, the
credentials in place, no bucket yet, bucket goroutines that all send before
any answer comes, and an operation that is `RUNNING` twice before it is
`DONE`. -/
def acmeEnv : Env :=
  { proj := "acme"
    zone := "us-central1-a"
    mach := "g1-small"
    instName := "camlistore-server"
    sshPub := ""
    help := false
    DevstorageFull_controlScope := "https://www.googleapis.com/auth/devstorage.full_control"
    ComputeScope := "https://www.googleapis.com/auth/compute"
    ioutilReadFile := fun v =>
      if v = "client-id.dat" then .ok "id\n"
      else if v = "client-secret.dat" then .ok "secret\n"
      else .notExist "no such file or directory"
    cachedToken := .ok "token"
    stdinLine := ""
    exchange := fun _ _ => .error "invalid_grant"
    bucketsList := .ok []
    bucketsInsert := fun b => .ok b
    schedule := []
    instancesInsert := fun _ => .ok { Name := "operation-1", Status := "PENDING", Error := none }
    zoneOperationsGet := [
      .ok { Name := "operation-1", Status := "RUNNING", Error := none },
      .ok { Name := "operation-1", Status := "RUNNING", Error := none },
      .ok { Name := "operation-1", Status := "DONE", Error := none }]
    instancesGet := .error "not found" }

/-- The example run with an ssh key file `id_rsa.pub` of the given contents. -/
def acmeEnvWithKey (contents : String) : Env :=
  { acmeEnv with
    sshPub := "id_rsa.pub"
    ioutilReadFile := fun v =>
      if v = "id_rsa.pub" then .ok contents else acmeEnv.ioutilReadFile v }

/-- The example run in which the insert of the blob bucket is refused and
that goroutine gets its answer before the other one has sent anything. -/
def acmeEnvBlobRefused : Env :=
  { acmeEnv with
    bucketsInsert := fun b =>
      if b.Name = "acme-camlistore-blobs" then .error "forbidden" else .ok b
    schedule := [.send "acme-camlistore-blobs", .answer "acme-camlistore-blobs"] }

/-! ## The monad of runs -/

@[simp] theorem Run.bind_eq {α β : Type} (m : Run α) (f : α → Run β) :
    m >>= f = Run.andThen m f := rfl

@[simp] theorem Run.pure_eq {α : Type} (a : α) : (pure a : Run α) = Run.ret a := rfl

@[simp] theorem Run.emit_andThen {β : Type} (e : Event) (f : Unit → Run β) :
    Run.andThen (emit e) f = ⟨e :: (f ()).trace, (f ()).result⟩ := rfl

@[simp] theorem Run.ret_andThen {α β : Type} (a : α) (f : α → Run β) :
    Run.andThen (Run.ret a) f = f a := by
  cases h : f a
  simp [Run.andThen, Run.ret, h]

@[simp] theorem Run.fatalf_andThen {α β : Type} (x : Fatal) (f : α → Run β) :
    Run.andThen (fatalf x) f = fatalf x := rfl

theorem Run.andThen_ok {α β : Type} (m : Run α) (f : α → Run β) (a : α)
    (h : m.result = .ok a) :
    Run.andThen m f = ⟨m.trace ++ (f a).trace, (f a).result⟩ := by
  simp [Run.andThen, h]

theorem Run.andThen_error {α β : Type} (m : Run α) (f : α → Run β) (x : Halt)
    (h : m.result = .error x) :
    Run.andThen m f = ⟨m.trace, .error x⟩ := by
  simp [Run.andThen, h]

@[simp] theorem Run.mk_ok_andThen {α β : Type} (t : List Event) (a : α) (f : α → Run β) :
    Run.andThen ⟨t, .ok a⟩ f = ⟨t ++ (f a).trace, (f a).result⟩ := rfl

@[simp] theorem Run.mk_error_andThen {α β : Type} (t : List Event) (x : Halt)
    (f : α → Run β) :
    Run.andThen (⟨t, .error x⟩ : Run α) f = ⟨t, .error x⟩ := rfl

@[simp] theorem Run.ret_trace {α : Type} (a : α) : (Run.ret a).trace = [] := rfl

@[simp] theorem Run.ret_result {α : Type} (a : α) : (Run.ret a).result = .ok a := rfl

/-! ## Strings, lengths and the rendered template -/

theorem len_mk (cs : List Char) : len ⟨cs⟩ = String.utf8Len cs := rfl

theorem len_append (s t : String) : len (s ++ t) = len s + len t := by
  show String.utf8Len (s.data ++ t.data) = String.utf8Len s.data + String.utf8Len t.data
  exact String.utf8Len_append _ _

theorem len_replicate (n : Nat) : len ⟨List.replicate n 'a'⟩ = n := by
  induction n with
  | zero => rfl
  | succ k ih =>
    rw [len_mk] at ih
    rw [len_mk, List.replicate_succ, String.utf8Len_cons, ih]
    rfl

theorem maxCloudConfig_eq : maxCloudConfig = 32768 := by decide

theorem append_left_cancel (p a b : String) (h : p ++ a = p ++ b) : a = b := by
  have hd := congrArg String.data h
  simp at hd
  exact String.ext hd

theorem blobBucket_ne_configBucket (p : String) : blobBucket p ≠ configBucket p := by
  intro h
  exact absurd (append_left_cancel _ _ _ h) (by decide)

theorem needBucket_eq (p : String) : needBucket p = [blobBucket p, configBucket p] := by
  have h := blobBucket_ne_configBucket p
  simp [needBucket, mapSet, Ne.symm h]

theorem needBucket_nodup (p : String) : (needBucket p).Nodup := by
  rw [needBucket_eq]
  simpa using blobBucket_ne_configBucket p

theorem cloudConfigFor_eq (m : String) :
    cloudConfigFor m = renderWith (innodbBufferPoolSize m) := rfl

theorem innodbBufferPoolSize_mem (m : String) :
    innodbBufferPoolSize m ∈ [33554432, 67108864, 134217728] := by
  unfold innodbBufferPoolSize
  split_ifs <;> decide

/-- The three texts the substitution can produce, computed: the placeholder
sits at offset 1524 of the template and is the only occurrence. -/
theorem renderWith_facts : ∀ v ∈ [33554432, 67108864, 134217728],
    (renderWith v).data = cloudConfigTemplate.data.take 1524 ++
      ("INNODB_BUFFER_POOL_SIZE=" ++ strconvItoa v).data ++
      cloudConfigTemplate.data.drop 1551 ∧
    ¬ stringsContains (renderWith v) "INNODB_BUFFER_POOL_SIZE=NNN" ∧
    len (renderWith v) = len cloudConfigTemplate - len "NNN" + len (strconvItoa v) ∧
    len (renderWith v) ≤ 2406 := by
  decide!

theorem cloudConfigTemplate_split :
    cloudConfigTemplate.data = cloudConfigTemplate.data.take 1524 ++
      "INNODB_BUFFER_POOL_SIZE=NNN".data ++ cloudConfigTemplate.data.drop 1551 := by
  decide!

theorem len_cloudConfigTemplate : len cloudConfigTemplate = 2400 := by
  decide!

theorem len_cloudConfigFor_le (m : String) : len (cloudConfigFor m) ≤ 2406 :=
  (renderWith_facts _ (innodbBufferPoolSize_mem m)).2.2.2

theorem checkCloudConfig_of_le (text : String) (h : len text ≤ 32768) :
    checkCloudConfig text = Run.ret () := by
  have h2 : ¬ (len text > 32768) := by omega
  simp [checkCloudConfig, maxCloudConfig_eq, h2]

theorem checkCloudConfig_of_gt (text : String) (h : len text > 32768) :
    checkCloudConfig text = fatalf (.cloudConfigTooLarge (len text) 32768) := by
  simp [checkCloudConfig, maxCloudConfig_eq, h]

theorem checkCloudConfig_cloudConfigFor (m : String) :
    checkCloudConfig (cloudConfigFor m) = Run.ret () :=
  checkCloudConfig_of_le _ (by have := len_cloudConfigFor_le m; omega)

/-! ## The bucket part -/

theorem foldl_mapDelete (items : List Bucket) (m : List String) :
    items.foldl (fun m it => mapDelete m it.Name) m =
      m.filter (fun n => decide (n ∉ items.map Bucket.Name)) := by
  induction items generalizing m with
  | nil => simp
  | cons b bs ih =>
    rw [List.foldl_cons, ih, mapDelete, List.filter_filter]
    congr 1
    funext n
    simp only [List.map_cons, List.mem_cons, not_or]
    by_cases h1 : n = b.Name <;> by_cases h2 : n ∈ bs.map Bucket.Name <;> simp [h1, h2]

theorem needBucketAfter_eq (p : String) (items : List Bucket) :
    needBucketAfter p items =
      (needBucket p).filter (fun n => decide (n ∉ items.map Bucket.Name)) :=
  foldl_mapDelete items (needBucket p)

theorem needBucketAfter_nil (p : String) : needBucketAfter p [] = needBucket p := rfl

theorem sendAll_eq (env : Env) (names : List String) :
    sendAll env names = ⟨names.map (bucketInsertCall env), .ok ()⟩ := by
  induction names with
  | nil => rfl
  | cons n rest ih => simp [sendAll, ih]

theorem answerAll_trace (env : Env) (names : List String) :
    (answerAll env names).trace = [] := by
  induction names with
  | nil => rfl
  | cons n rest ih =>
    unfold answerAll
    cases env.bucketsInsert { Id := n, Name := n } with
    | error err => rfl
    | ok b => exact ih

/-- The answers end the goroutines or one of them, refused, exits. -/
theorem answerAll_result (env : Env) (names : List String) :
    (answerAll env names).result = .ok () ∨
    ∃ name err, name ∈ names ∧
      env.bucketsInsert { Id := name, Name := name } = .error err ∧
      (answerAll env names).result = .error (.fatal (.createBucketFailed name err)) := by
  induction names with
  | nil => exact Or.inl rfl
  | cons n rest ih =>
    unfold answerAll
    cases hb : env.bucketsInsert { Id := n, Name := n } with
    | error err => exact Or.inr ⟨n, err, by simp, hb, rfl⟩
    | ok b =>
      rcases ih with h | ⟨name, err, hmem, herr, hres⟩
      · exact Or.inl h
      · exact Or.inr ⟨name, err, by simp [hmem], herr, hres⟩

/-- Whatever the scheduler does: the insert calls made are those of distinct
pending goroutines, all of them if the barrier is passed, and the barrier is
passed unless a goroutine whose insert is refused exits the process. -/
theorem runGoroutines_spec (env : Env) (sched : List Move) (pending inflight : List String) :
    ∃ issued : List String, (runGoroutines env sched pending inflight).trace =
        issued.map (bucketInsertCall env) ∧
      issued.Subperm pending ∧
      ((runGoroutines env sched pending inflight).result = .ok () → issued.Perm pending) ∧
      ((runGoroutines env sched pending inflight).result = .ok () ∨
        ∃ name err, name ∈ pending ++ inflight ∧
          env.bucketsInsert { Id := name, Name := name } = .error err ∧
          (runGoroutines env sched pending inflight).result =
            .error (.fatal (.createBucketFailed name err))) := by
  induction sched generalizing pending inflight with
  | nil =>
    refine ⟨pending, ?_, List.Subperm.refl _, fun _ => List.Perm.refl _, ?_⟩
    · simp [runGoroutines, sendAll_eq, answerAll_trace]
    · have hres : (runGoroutines env [] pending inflight).result =
          (answerAll env (inflight ++ pending)).result := by
        simp [runGoroutines, sendAll_eq]
      rw [hres]
      rcases answerAll_result env (inflight ++ pending) with h | ⟨name, err, hmem, herr, hr⟩
      · exact Or.inl h
      · refine Or.inr ⟨name, err, ?_, herr, hr⟩
        simp only [List.mem_append] at hmem ⊢
        exact hmem.symm
  | cons mv sched ih =>
    cases mv with
    | send name =>
      by_cases hmem : name ∈ pending
      · obtain ⟨issued, htr, hsub, hperm, hres⟩ :=
          ih (pending.erase name) (inflight ++ [name])
        have hstep : runGoroutines env (.send name :: sched) pending inflight =
            ⟨bucketInsertCall env name ::
              (runGoroutines env sched (pending.erase name) (inflight ++ [name])).trace,
             (runGoroutines env sched (pending.erase name) (inflight ++ [name])).result⟩ := by
          simp [runGoroutines, hmem]
        rw [hstep]
        refine ⟨name :: issued, ?_, ?_, ?_, ?_⟩
        · simp [htr]
        · exact ((List.subperm_cons name).2 hsub).trans (List.perm_cons_erase hmem).symm.subperm
        · intro hok
          exact ((hperm hok).cons name).trans (List.perm_cons_erase hmem).symm
        · rcases hres with h | ⟨n, err, hn, herr, hr⟩
          · exact Or.inl h
          · refine Or.inr ⟨n, err, ?_, herr, hr⟩
            simp only [List.mem_append, List.mem_singleton] at hn ⊢
            rcases hn with hn | hn | hn
            · exact Or.inl (List.mem_of_mem_erase hn)
            · exact Or.inr hn
            · exact Or.inl (hn ▸ hmem)
      · have hstep : runGoroutines env (.send name :: sched) pending inflight =
            runGoroutines env sched pending inflight := by
          simp [runGoroutines, hmem]
        rw [hstep]
        exact ih pending inflight
    | answer name =>
      by_cases hmem : name ∈ inflight
      · cases hb : env.bucketsInsert { Id := name, Name := name } with
        | error err =>
          have hstep : runGoroutines env (.answer name :: sched) pending inflight =
              fatalf (.createBucketFailed name err) := by
            simp [runGoroutines, hmem, hb]
          rw [hstep]
          refine ⟨[], rfl, List.nil_subperm, ?_, ?_⟩
          · intro hok; cases hok
          · exact Or.inr ⟨name, err, List.mem_append_right _ hmem, hb, rfl⟩
        | ok b =>
          have hstep : runGoroutines env (.answer name :: sched) pending inflight =
              runGoroutines env sched pending (inflight.erase name) := by
            simp [runGoroutines, hmem, hb]
          rw [hstep]
          obtain ⟨issued, htr, hsub, hperm, hres⟩ := ih pending (inflight.erase name)
          refine ⟨issued, htr, hsub, hperm, ?_⟩
          rcases hres with h | ⟨n, err, hn, herr, hr⟩
          · exact Or.inl h
          · refine Or.inr ⟨n, err, ?_, herr, hr⟩
            simp only [List.mem_append] at hn ⊢
            rcases hn with hn | hn
            · exact Or.inl hn
            · exact Or.inr (List.mem_of_mem_erase hn)
      · have hstep : runGoroutines env (.answer name :: sched) pending inflight =
            runGoroutines env sched pending inflight := by
          simp [runGoroutines, hmem]
        rw [hstep]
        exact ih pending inflight

theorem createBuckets_spec (env : Env) (names : List String) :
    ∃ issued : List String, (createBuckets env names).trace = issued.map (bucketInsertCall env) ∧
      issued.Subperm names ∧
      ((createBuckets env names).result = .ok () → issued.Perm names) ∧
      ((createBuckets env names).result = .ok () ∨
        ∃ name err, name ∈ names ∧
          env.bucketsInsert { Id := name, Name := name } = .error err ∧
          (createBuckets env names).result =
            .error (.fatal (.createBucketFailed name err))) := by
  obtain ⟨issued, htr, hsub, hperm, hres⟩ := runGoroutines_spec env env.schedule names []
  refine ⟨issued, htr, hsub, hperm, ?_⟩
  rcases hres with h | ⟨n, err, hn, herr, hr⟩
  · exact Or.inl h
  · exact Or.inr ⟨n, err, by simpa using hn, herr, hr⟩

/-- When no insert is refused the barrier is passed, each goroutine having
made its call, in the order the scheduler chose. -/
theorem createBuckets_ok (env : Env) (names : List String)
    (h : ∀ n ∈ names, ∃ b, env.bucketsInsert { Id := n, Name := n } = .ok b) :
    ∃ issued : List String, issued.Perm names ∧
      createBuckets env names = ⟨issued.map (bucketInsertCall env), .ok ()⟩ := by
  obtain ⟨issued, htr, -, hperm, hres⟩ := createBuckets_spec env names
  have hok : (createBuckets env names).result = .ok () := by
    rcases hres with hr | ⟨n, err, hn, herr, -⟩
    · exact hr
    · obtain ⟨b, hb⟩ := h n hn
      rw [hb] at herr
      cases herr
  refine ⟨issued, hperm hok, ?_⟩
  cases hc : createBuckets env names with
  | mk tr res =>
    rw [hc] at htr hok
    simp only at htr hok
    rw [htr, hok]

theorem createBuckets_nil (env : Env) : createBuckets env [] = Run.ret () := by
  obtain ⟨issued, hperm, hc⟩ := createBuckets_ok env [] (fun n hn => by cases hn)
  rw [hc, List.perm_nil.1 hperm]
  rfl

theorem ensureBuckets_eq (env : Env) (items : List Bucket)
    (hlist : env.bucketsList = .ok items) :
    ensureBuckets env =
      ⟨Event.bucketsList env.proj ::
          (createBuckets env (needBucketAfter env.proj items)).trace,
        (createBuckets env (needBucketAfter env.proj items)).result⟩ := by
  simp only [ensureBuckets, hlist, Run.bind_eq, Run.emit_andThen]
  split_ifs with h
  · rfl
  · have hnil : needBucketAfter env.proj items = [] := by
      cases hn : needBucketAfter env.proj items with
      | nil => rfl
      | cons a l => simp [hn] at h
    rw [hnil, createBuckets_nil]
    rfl

theorem bucketInsertCall_injective (env : Env) :
    Function.Injective (bucketInsertCall env) := by
  intro a b h
  simp [bucketInsertCall] at h
  exact h

theorem filter_isBucketsInsert_calls (env : Env) (names : List String) :
    (names.map (bucketInsertCall env)).filter Event.isBucketsInsert =
      names.map (bucketInsertCall env) := by
  apply List.filter_eq_self.2
  intro e he
  obtain ⟨n, -, rfl⟩ := List.mem_map.1 he
  rfl

/-- With nothing decided by the scheduler both goroutines have sent when the
refusal of the blob insert exits the process. -/
theorem createBuckets_refused_after_both_sent :
    (createBuckets { acmeEnvBlobRefused with schedule := [] } (needBucket "acme")).trace =
      [bucketInsertCall acmeEnv "acme-camlistore-blobs",
       bucketInsertCall acmeEnv "acme-camlistore-config"] ∧
    (createBuckets { acmeEnvBlobRefused with schedule := [] } (needBucket "acme")).result =
      .error (.fatal (.createBucketFailed "acme-camlistore-blobs" "forbidden")) :=
  ⟨by decide, rfl⟩

/-- The scheduler may let the goroutine of the config bucket send first. -/
theorem createBuckets_config_first :
    (createBuckets { acmeEnv with schedule := [.send "acme-camlistore-config"] }
      (needBucket "acme")).trace =
      [bucketInsertCall acmeEnv "acme-camlistore-config",
       bucketInsertCall acmeEnv "acme-camlistore-blobs"] ∧
    (createBuckets { acmeEnv with schedule := [.send "acme-camlistore-config"] }
      (needBucket "acme")).result = .ok () :=
  ⟨by decide, rfl⟩

/-! ## The polling loop -/

theorem logOpErrors_eq (errs : List OperationErrorErrors) :
    logOpErrors errs = ⟨errs.map Event.logOpError, .ok ()⟩ := by
  induction errs with
  | nil => rfl
  | cons e rest ih => simp [logOpErrors, ih]

/-- One round of `OpLoop` on a fetched operation. -/
theorem opLoop_cons_ok (env : Env) (opName : String) (op : Operation)
    (later : List (Except String Operation)) :
    opLoop env opName (.ok op :: later) =
      let r : Run Unit :=
        if op.Status = "PENDING" ∨ op.Status = "RUNNING" then opLoop env opName later
        else if op.Status = "DONE" then
          match op.Error with
          | some e => ⟨e.Errors.map Event.logOpError, .error (.fatal .failedToStart)⟩
          | none => ⟨[], .ok ()⟩
        else ⟨[], .error (.fatal (.unknownStatus op.Status op))⟩
      ⟨Event.sleep 2 :: Event.zoneOperationsGet env.proj env.zone opName :: r.trace,
        r.result⟩ := by
  simp only [opLoop, Run.bind_eq, Run.emit_andThen, Run.pure_eq]
  split_ifs with h1 h2
  · simp
  · cases h : op.Error with
    | none => simp [Run.ret]
    | some e => simp [logOpErrors_eq, Run.andThen, fatalf]
  · simp [fatalf]

theorem pollEvents_succ (env : Env) (opName : String) (n : Nat) :
    pollEvents env opName (n + 1) =
      Event.sleep 2 :: Event.zoneOperationsGet env.proj env.zone opName ::
        pollEvents env opName n := by
  simp [pollEvents, List.replicate_succ]

theorem pollEvents_succ_last (env : Env) (opName : String) (n : Nat) :
    pollEvents env opName (n + 1) = pollEvents env opName n ++
      [Event.sleep 2, Event.zoneOperationsGet env.proj env.zone opName] := by
  simp [pollEvents, List.replicate_succ']

/-- The loop goes through a run of `PENDING` / `RUNNING` answers, one round
each, and carries on with the answers that follow. -/
theorem opLoop_skip (env : Env) (opName : String) (waitingOps : List Operation)
    (rest : List (Except String Operation))
    (hwait : ∀ w ∈ waitingOps, w.Status = "PENDING" ∨ w.Status = "RUNNING") :
    opLoop env opName (waitingOps.map .ok ++ rest) =
      ⟨pollEvents env opName waitingOps.length ++ (opLoop env opName rest).trace,
        (opLoop env opName rest).result⟩ := by
  induction waitingOps with
  | nil => simp [pollEvents]
  | cons w ws ih =>
    have hw := hwait w (by simp)
    have hws : ∀ x ∈ ws, x.Status = "PENDING" ∨ x.Status = "RUNNING" :=
      fun x hx => hwait x (by simp [hx])
    simp only [List.map_cons, List.cons_append, opLoop_cons_ok, hw, if_true, ih hws,
      List.length_cons, pollEvents_succ]

theorem filter_isGetOp_pollEvents (env : Env) (opName : String) (n : Nat) :
    ((pollEvents env opName n).filter Event.isGetOp).length = n := by
  induction n with
  | zero => rfl
  | succ k ih => simp [pollEvents_succ, Event.isGetOp, ih]

/-- The loop decides on the first answer that is neither `PENDING` nor
`RUNNING`, whatever answers would follow. -/
theorem opLoop_at_terminal (env : Env) (opName : String) (waitingOps : List Operation)
    (op : Operation) (later : List (Except String Operation))
    (hwait : ∀ w ∈ waitingOps, w.Status = "PENDING" ∨ w.Status = "RUNNING")
    (hterm : op.Status ≠ "PENDING" ∧ op.Status ≠ "RUNNING") :
    opLoop env opName (waitingOps.map .ok ++ .ok op :: later) =
      let r : Run Unit :=
        if op.Status = "DONE" then
          match op.Error with
          | some e => ⟨e.Errors.map Event.logOpError, .error (.fatal .failedToStart)⟩
          | none => ⟨[], .ok ()⟩
        else ⟨[], .error (.fatal (.unknownStatus op.Status op))⟩
      ⟨pollEvents env opName (waitingOps.length + 1) ++ r.trace, r.result⟩ := by
  have hp : ¬ (op.Status = "PENDING" ∨ op.Status = "RUNNING") := by
    rintro (h | h)
    · exact hterm.1 h
    · exact hterm.2 h
  rw [opLoop_skip env opName waitingOps _ hwait, opLoop_cons_ok, pollEvents_succ_last]
  simp only [hp, if_false]
  simp

theorem opLoop_no_insert (env : Env) (opName : String)
    (answers : List (Except String Operation)) :
    (opLoop env opName answers).trace.filter Event.isInsert = [] := by
  induction answers with
  | nil => rfl
  | cons a later ih =>
    cases a with
    | error err => simp [opLoop, fatalf, Event.isInsert, Event.isBucketsInsert,
        Event.isInstancesInsert]
    | ok op =>
      rw [opLoop_cons_ok]
      simp only [List.filter_cons, Event.isInsert, Event.isBucketsInsert,
        Event.isInstancesInsert, Bool.or_self, Bool.false_eq_true, if_false]
      split_ifs with h1 h2
      · exact ih
      · cases op.Error with
        | none => rfl
        | some e =>
          simp only [List.filter_eq_nil_iff, List.mem_map]
          rintro x ⟨y, -, rfl⟩
          simp [Event.isInsert, Event.isBucketsInsert, Event.isInstancesInsert]
      · rfl

/-! ## The whole run -/

theorem readFile_ok (env : Env) (v slurp : String) (h : env.ioutilReadFile v = .ok slurp) :
    readFile env v = ⟨[Event.readFile v], .ok (stringsTrimSpace slurp)⟩ := by
  simp [readFile, h]

theorem obtainToken_ok (env : Env) (config : OauthConfig)
    (h : (∃ token, env.cachedToken = .ok token) ∨
      (∃ token, env.exchange config (stringsTrimSpace env.stdinLine) = .ok token)) :
    ∃ tr token, obtainToken env config = ⟨tr, .ok token⟩ ∧ ∀ e ∈ tr, e.isInsert = false := by
  cases hc : env.cachedToken with
  | ok token =>
    exact ⟨[], token, by simp [obtainToken, hc, Run.ret], by simp⟩
  | error err =>
    rcases h with ⟨token, ht⟩ | ⟨token, ht⟩
    · rw [hc] at ht; cases ht
    · refine ⟨[Event.tokenExchange config (stringsTrimSpace env.stdinLine),
        Event.putToken (env.proj ++ "-token.dat") token], token, ?_, ?_⟩
      · simp [obtainToken, hc, ht, Run.ret]
      · intro e he
        simp at he
        rcases he with rfl | rfl <;> rfl

theorem authorize_ok (env : Env) (h : env.credentialsOk) :
    ∃ tr token, authorize env = ⟨tr, .ok token⟩ ∧ ∀ e ∈ tr, e.isInsert = false := by
  obtain ⟨id, secret, hid, hsecret, htok⟩ := h
  obtain ⟨tr, token, hob, htr⟩ := obtainToken_ok env _ htok
  refine ⟨Event.readFile clientIdDat :: Event.readFile clientSecretDat :: tr, token, ?_, ?_⟩
  · simp [authorize, readFile_ok env _ _ hid, readFile_ok env _ _ hsecret, hob]
  · intro e he
    simp at he
    rcases he with rfl | rfl | he
    · rfl
    · rfl
    · exact htr e he

/-- A run with a project, without `--help` and with working credentials gets
to the ssh key, bucket and instance parts with the substituted text. -/
theorem main_of_credentialsOk (env : Env) (hhelp : env.help = false) (hproj : env.proj ≠ "")
    (hcred : env.credentialsOk) :
    ∃ tr, (∀ e ∈ tr, e.isInsert = false) ∧
      main env = Run.andThen ⟨tr, .ok ()⟩ (fun _ =>
        Run.andThen (appendSSHKey env (cloudConfigFor env.mach)) (fun cloudConfig =>
          Run.andThen (ensureBuckets env) (fun _ => provision env cloudConfig))) := by
  obtain ⟨tr, token, hauth, htr⟩ := authorize_ok env hcred
  refine ⟨tr, htr, ?_⟩
  simp [main, hhelp, hproj, hauth, checkCloudConfig_cloudConfigFor]

theorem appendSSHKey_none (env : Env) (cloudConfig : String) (h : env.sshPub = "") :
    appendSSHKey env cloudConfig = Run.ret cloudConfig := by
  simp [appendSSHKey, h]

theorem appendSSHKey_some (env : Env) (cloudConfig contents : String) (h : env.sshPub ≠ "")
    (hread : env.ioutilReadFile env.sshPub = .ok contents) :
    appendSSHKey env cloudConfig = ⟨[Event.readFile env.sshPub],
      .ok (cloudConfig ++ sshAuthorizedKeys (stringsTrimSpace (stringsTrimSpace contents)))⟩ := by
  simp [appendSSHKey, h, readFile_ok env _ _ hread, Run.ret]

theorem provision_trace (env : Env) (cloudConfig : String) :
    ∃ rest, (provision env cloudConfig).trace =
        Event.instancesInsert env.proj env.zone (buildInstance env cloudConfig) :: rest ∧
      ∀ e ∈ rest, e.isInsert = false := by
  cases hins : env.instancesInsert (buildInstance env cloudConfig) with
  | error err => exact ⟨[], by simp [provision, hins, fatalf], by simp⟩
  | ok op =>
    have hno := opLoop_no_insert env op.Name env.zoneOperationsGet
    rw [List.filter_eq_nil_iff] at hno
    cases hres : (opLoop env op.Name env.zoneOperationsGet).result with
    | error x =>
      refine ⟨(opLoop env op.Name env.zoneOperationsGet).trace, ?_, ?_⟩
      · simp [provision, hins, Run.andThen_error _ _ _ hres]
      · intro e he; simpa using hno e he
    | ok u =>
      refine ⟨(opLoop env op.Name env.zoneOperationsGet).trace ++
        [Event.instancesGet env.proj env.zone env.instName], ?_, ?_⟩
      · simp only [provision, hins, Run.bind_eq, Run.emit_andThen, Run.andThen_ok _ _ _ hres]
        cases env.instancesGet <;> simp [fatalf]
      · intro e he
        rw [List.mem_append] at he
        rcases he with he | he
        · simpa using hno e he
        · simp at he; subst he; rfl

theorem ensureBuckets_ok (env : Env) (items : List Bucket)
    (hlist : env.bucketsList = .ok items)
    (hins : ∀ b, ∃ r, env.bucketsInsert b = .ok r) :
    ∃ issued : List String, issued.Perm (needBucketAfter env.proj items) ∧
      ensureBuckets env = ⟨Event.bucketsList env.proj ::
        issued.map (bucketInsertCall env), .ok ()⟩ := by
  obtain ⟨issued, hperm, hc⟩ := createBuckets_ok env (needBucketAfter env.proj items)
    (fun n _ => hins _)
  exact ⟨issued, hperm, by rw [ensureBuckets_eq env items hlist, hc]⟩

theorem filter_false_of_forall {p : Event → Bool} {tr : List Event}
    (h : ∀ e ∈ tr, p e = false) : tr.filter p = [] := by
  rw [List.filter_eq_nil_iff]
  intro e he
  simp [h e he]

theorem isInstancesInsert_of_isInsert_false {e : Event} (h : e.isInsert = false) :
    e.isInstancesInsert = false := by
  simp [Event.isInsert] at h
  exact h.2

theorem mem_of_filter_eq_singleton {p : Event → Bool} {tr : List Event} {e : Event}
    (h : tr.filter p = [e]) : e ∈ tr := by
  have hmem : e ∈ tr.filter p := by rw [h]; exact List.mem_singleton.2 rfl
  exact (List.mem_filter.1 hmem).1

theorem acmeEnv_credentialsOk : acmeEnv.credentialsOk :=
  ⟨"id\n", "secret\n", rfl, rfl, Or.inl ⟨"token", rfl⟩⟩

theorem stringsTrimSpace_replicate (n : Nat) :
    stringsTrimSpace ⟨List.replicate n 'a'⟩ = ⟨List.replicate n 'a'⟩ := by
  have hd : ∀ k, (List.replicate k 'a').dropWhile unicodeIsSpace = List.replicate k 'a' := by
    intro k
    cases k with
    | zero => rfl
    | succ j =>
      rw [List.replicate_succ, List.dropWhile_cons]
      have : unicodeIsSpace 'a' = false := by decide
      simp [this]
  simp only [stringsTrimSpace, hd, List.reverse_replicate]

theorem acmeEnvWithKey_credentialsOk (contents : String) :
    (acmeEnvWithKey contents).credentialsOk :=
  ⟨"id\n", "secret\n", rfl, rfl, Or.inl ⟨"token", rfl⟩⟩

theorem main_with_key (env : Env) (contents : String) (items : List Bucket)
    (hhelp : env.help = false) (hproj : env.proj ≠ "") (hcred : env.credentialsOk)
    (hkey : env.sshPub ≠ "") (hread : env.ioutilReadFile env.sshPub = .ok contents)
    (hlist : env.bucketsList = .ok items)
    (hins : ∀ b, ∃ r, env.bucketsInsert b = .ok r) :
    (main env).trace.filter Event.isInstancesInsert =
      [Event.instancesInsert env.proj env.zone (buildInstance env
        (cloudConfigFor env.mach ++
          sshAuthorizedKeys (stringsTrimSpace (stringsTrimSpace contents))))] := by
  obtain ⟨tr, htr, hmain⟩ := main_of_credentialsOk env hhelp hproj hcred
  obtain ⟨rest, hprov, hrest⟩ := provision_trace env (cloudConfigFor env.mach ++
    sshAuthorizedKeys (stringsTrimSpace (stringsTrimSpace contents)))
  obtain ⟨issued, -, hens⟩ := ensureBuckets_ok env items hlist hins
  have h1 : tr.filter Event.isInstancesInsert = [] :=
    filter_false_of_forall (fun e he => isInstancesInsert_of_isInsert_false (htr e he))
  have h2 : rest.filter Event.isInstancesInsert = [] :=
    filter_false_of_forall (fun e he => isInstancesInsert_of_isInsert_false (hrest e he))
  have h3 : (issued.map (bucketInsertCall env)).filter Event.isInstancesInsert = [] := by
    apply filter_false_of_forall
    intro e he
    obtain ⟨n, -, rfl⟩ := List.mem_map.1 he
    rfl
  rw [hmain, appendSSHKey_some env _ contents hkey hread, hens]
  simp only [Run.mk_ok_andThen, hprov, List.filter_append, h1, h3, List.nil_append,
    List.filter_cons, h2]
  simp [Event.isInstancesInsert]

/-! ## The config-too-large exit is never taken -/

theorem Run.not_tooLarge_andThen {α β : Type} (m : Run α) (f : α → Run β)
    (hm : ¬ m.tooLarge) (hf : ∀ a, ¬ (f a).tooLarge) : ¬ (Run.andThen m f).tooLarge := by
  cases h : m.result with
  | error x =>
    rw [Run.andThen_error m f x h]
    rintro ⟨n, l, hx⟩
    have hx2 : x = .fatal (.cloudConfigTooLarge n l) := Except.error.inj hx
    exact hm ⟨n, l, by rw [h, hx2]⟩
  | ok a =>
    rw [Run.andThen_ok m f a h]
    rintro ⟨n, l, hx⟩
    exact hf a ⟨n, l, hx⟩

theorem Run.not_tooLarge_ok {α : Type} (t : List Event) (a : α) :
    ¬ (⟨t, .ok a⟩ : Run α).tooLarge := by
  rintro ⟨n, l, h⟩
  cases h

theorem readFile_not_tooLarge (env : Env) (v : String) : ¬ (readFile env v).tooLarge := by
  rintro ⟨n, l, h⟩
  cases hr : env.ioutilReadFile v <;> simp [readFile, hr, fatalf, Run.ret] at h

theorem obtainToken_not_tooLarge (env : Env) (config : OauthConfig) :
    ¬ (obtainToken env config).tooLarge := by
  rintro ⟨n, l, h⟩
  unfold obtainToken at h
  cases hc : env.cachedToken with
  | ok t => simp [hc, Run.ret] at h
  | error err =>
    cases hx : env.exchange config (stringsTrimSpace env.stdinLine) <;>
      simp [hc, hx, fatalf, Run.ret] at h

theorem authorize_not_tooLarge (env : Env) : ¬ (authorize env).tooLarge := by
  unfold authorize
  simp only [Run.bind_eq]
  exact Run.not_tooLarge_andThen _ _ (readFile_not_tooLarge env _) (fun _ =>
    Run.not_tooLarge_andThen _ _ (readFile_not_tooLarge env _) (fun _ =>
      obtainToken_not_tooLarge env _))

theorem appendSSHKey_not_tooLarge (env : Env) (cloudConfig : String) :
    ¬ (appendSSHKey env cloudConfig).tooLarge := by
  unfold appendSSHKey
  split_ifs with h
  · simp only [Run.bind_eq, Run.pure_eq]
    exact Run.not_tooLarge_andThen _ _ (readFile_not_tooLarge env _)
      (fun _ => Run.not_tooLarge_ok _ _)
  · exact Run.not_tooLarge_ok _ _

theorem createBuckets_not_tooLarge (env : Env) (names : List String) :
    ¬ (createBuckets env names).tooLarge := by
  rintro ⟨k, l, h⟩
  obtain ⟨issued, -, -, -, hres⟩ := createBuckets_spec env names
  rcases hres with hr | ⟨n, err, -, -, hr⟩
  · rw [hr] at h; cases h
  · rw [hr] at h; cases h

theorem ensureBuckets_not_tooLarge (env : Env) : ¬ (ensureBuckets env).tooLarge := by
  cases hl : env.bucketsList with
  | error err =>
    rintro ⟨n, l, h⟩
    simp [ensureBuckets, hl, fatalf] at h
  | ok items =>
    rw [ensureBuckets_eq env items hl]
    rintro ⟨n, l, h⟩
    exact createBuckets_not_tooLarge env _ ⟨n, l, h⟩

theorem opLoop_not_tooLarge (env : Env) (opName : String)
    (answers : List (Except String Operation)) :
    ¬ (opLoop env opName answers).tooLarge := by
  induction answers with
  | nil =>
    rintro ⟨n, l, h⟩
    cases h
  | cons a later ih =>
    cases a with
    | error err =>
      rintro ⟨n, l, h⟩
      simp [opLoop, fatalf] at h
    | ok op =>
      rw [opLoop_cons_ok]
      rintro ⟨n, l, h⟩
      simp only at h
      split_ifs at h with h1 h2
      · exact ih ⟨n, l, h⟩
      · cases he : op.Error <;> simp [he] at h
      · simp at h

theorem provision_not_tooLarge (env : Env) (cloudConfig : String) :
    ¬ (provision env cloudConfig).tooLarge := by
  unfold provision
  simp only [Run.bind_eq, Run.emit_andThen]
  rintro ⟨n, l, h⟩
  simp only at h
  cases hins : env.instancesInsert (buildInstance env cloudConfig) with
  | error err => simp [hins, fatalf] at h
  | ok op =>
    simp only [hins] at h
    refine Run.not_tooLarge_andThen _ _ (opLoop_not_tooLarge env op.Name _) ?_ ⟨n, l, h⟩
    intro _
    rintro ⟨n, l, h⟩
    cases hg : env.instancesGet <;> simp [hg, fatalf, Run.ret] at h

theorem main_not_tooLarge (env : Env) : ¬ (main env).tooLarge := by
  unfold main
  split_ifs with h1 h2
  · exact Run.not_tooLarge_ok _ _
  · exact Run.not_tooLarge_ok _ _
  · simp only [Run.bind_eq, checkCloudConfig_cloudConfigFor, Run.ret_andThen]
    exact Run.not_tooLarge_andThen _ _ (authorize_not_tooLarge env) (fun _ =>
      Run.not_tooLarge_andThen _ _ (appendSSHKey_not_tooLarge env _) (fun _ =>
        Run.not_tooLarge_andThen _ _ (ensureBuckets_not_tooLarge env) (fun _ =>
          provision_not_tooLarge env _)))

theorem filterMap_opError_pollEvents (env : Env) (opName : String) (n : Nat) :
    (pollEvents env opName n).filterMap Event.opError? = [] := by
  induction n with
  | zero => rfl
  | succ k ih => simp [pollEvents_succ, Event.opError?, ih]

theorem filterMap_opError_logOpError (errs : List OperationErrorErrors) :
    (errs.map Event.logOpError).filterMap Event.opError? = errs := by
  induction errs with
  | nil => rfl
  | cons e rest ih => simp [Event.opError?, List.filterMap_map, Function.comp_def]

/-! ## The statements about the program -/

/-- C1: when the fetched answers are a run of `PENDING` / `RUNNING` operations
followed by an operation `op` with any other status, `OpLoop` makes one
`ZoneOperations.Get` per waiting answer and one for `op`, none for what would
come later, and decides on `op`: `DONE` with a nil `op.Error` ends the loop
normally; `DONE` with an `op.Error` prints each of its sub-errors in order and
exits with "Failed to start."; any other status exits with the unknown-status
message carrying that status. -/
theorem opLoop_decides_on_first_terminal (env : Env) (opName : String)
    (waitingOps : List Operation) (op : Operation) (later : List (Except String Operation))
    (hwait : ∀ w ∈ waitingOps, w.Status = "PENDING" ∨ w.Status = "RUNNING")
    (hterm : op.Status ≠ "PENDING" ∧ op.Status ≠ "RUNNING") :
    let r := opLoop env opName (waitingOps.map .ok ++ .ok op :: later)
    (r.trace.filter Event.isGetOp).length = waitingOps.length + 1 ∧
    (op.Status = "DONE" → op.Error = none →
      r.trace = pollEvents env opName (waitingOps.length + 1) ∧ r.result = .ok ()) ∧
    (∀ e, op.Status = "DONE" → op.Error = some e →
      r.trace = pollEvents env opName (waitingOps.length + 1) ++
        e.Errors.map Event.logOpError ∧
      r.result = .error (.fatal .failedToStart)) ∧
    (op.Status ≠ "DONE" →
      r.trace = pollEvents env opName (waitingOps.length + 1) ∧
      r.result = .error (.fatal (.unknownStatus op.Status op))) := by
  intro r
  have hr : r = _ := opLoop_at_terminal env opName waitingOps op later hwait hterm
  refine ⟨?_, ?_, ?_, ?_⟩
  · rw [hr]
    simp only [List.filter_append, List.length_append, filter_isGetOp_pollEvents]
    split_ifs with h
    · cases op.Error <;> simp [Event.isGetOp, List.filter_map, Function.comp_def]
    · simp
  · intro hd he
    rw [hr]
    simp [hd, he]
  · intro e hd he
    rw [hr]
    simp [hd, he]
  · intro hd
    rw [hr]
    simp [hd]

/-- The three example scripts of C1: `[RUNNING, RUNNING, DONE]` without error
succeeds, `[RUNNING, DONE]` with one sub-error prints it and fails, and an
unrecognised status is fatal. -/
theorem opLoop_decides_on_first_terminal_witness :
    (opLoop acmeEnv "operation-1" [
        .ok { Name := "operation-1", Status := "RUNNING", Error := none },
        .ok { Name := "operation-1", Status := "RUNNING", Error := none },
        .ok { Name := "operation-1", Status := "DONE", Error := none }]).result = .ok () ∧
    (opLoop acmeEnv "operation-1" [
        .ok { Name := "operation-1", Status := "RUNNING", Error := none },
        .ok { Name := "operation-1", Status := "DONE",
              Error := some { Errors := ["QUOTA_EXCEEDED"] } }]).trace =
      pollEvents acmeEnv "operation-1" 2 ++ [Event.logOpError "QUOTA_EXCEEDED"] ∧
    (opLoop acmeEnv "operation-1" [
        .ok { Name := "operation-1", Status := "RUNNING", Error := none },
        .ok { Name := "operation-1", Status := "DONE",
              Error := some { Errors := ["QUOTA_EXCEEDED"] } }]).result =
      .error (.fatal .failedToStart) ∧
    (opLoop acmeEnv "operation-1" [
        .ok { Name := "operation-1", Status := "STOPPED", Error := none }]).result =
      .error (.fatal (.unknownStatus "STOPPED"
        { Name := "operation-1", Status := "STOPPED", Error := none })) :=
  ⟨((opLoop_decides_on_first_terminal acmeEnv "operation-1"
      [{ Name := "operation-1", Status := "RUNNING", Error := none },
       { Name := "operation-1", Status := "RUNNING", Error := none }]
      { Name := "operation-1", Status := "DONE", Error := none } []
      (by decide) (by decide)).2.1 rfl rfl).2,
   ((opLoop_decides_on_first_terminal acmeEnv "operation-1"
      [{ Name := "operation-1", Status := "RUNNING", Error := none }]
      { Name := "operation-1", Status := "DONE",
        Error := some { Errors := ["QUOTA_EXCEEDED"] } } []
      (by decide) (by decide)).2.2.1 _ rfl rfl).1,
   ((opLoop_decides_on_first_terminal acmeEnv "operation-1"
      [{ Name := "operation-1", Status := "RUNNING", Error := none }]
      { Name := "operation-1", Status := "DONE",
        Error := some { Errors := ["QUOTA_EXCEEDED"] } } []
      (by decide) (by decide)).2.2.1 _ rfl rfl).2,
   ((opLoop_decides_on_first_terminal acmeEnv "operation-1" []
      { Name := "operation-1", Status := "STOPPED", Error := none } []
      (by decide) (by decide)).2.2.2 (by decide)).2⟩

/-- C2, as stated, fails: a `DONE` operation whose `op.Error` is present with
an empty `Errors` list carries zero sub-errors, and yet the run exits with
"Failed to start." instead of succeeding. -/
theorem opLoop_done_empty_error_list_fails :
    (Operation.mk "operation-1" "DONE" (some { Errors := [] })).subErrors = [] ∧
    (opLoop acmeEnv "operation-1"
      [.ok (Operation.mk "operation-1" "DONE" (some { Errors := [] }))]).result =
        .error (.fatal .failedToStart) ∧
    (opLoop acmeEnv "operation-1"
      [.ok (Operation.mk "operation-1" "DONE" (some { Errors := [] }))]).result ≠ .ok () := by
  refine ⟨rfl, ?_, ?_⟩
  · simp [opLoop_cons_ok]
  · simp [opLoop_cons_ok]

/-- C2, amended: for an operation observed with status `DONE`, the run fails
with "Failed to start." exactly when `op.Error` is present and ends the loop
normally exactly when it is nil; the sub-errors printed are those the
operation carries, one print each, in list order; in particular a non-empty
sub-error list makes the run fail. -/
theorem opLoop_done_fails_iff_error_present (env : Env) (opName : String)
    (waitingOps : List Operation) (op : Operation) (later : List (Except String Operation))
    (hwait : ∀ w ∈ waitingOps, w.Status = "PENDING" ∨ w.Status = "RUNNING")
    (hdone : op.Status = "DONE") :
    let r := opLoop env opName (waitingOps.map .ok ++ .ok op :: later)
    (r.result = .error (.fatal .failedToStart) ↔ op.Error ≠ none) ∧
    (r.result = .ok () ↔ op.Error = none) ∧
    r.trace.filterMap Event.opError? = op.subErrors ∧
    (op.subErrors ≠ [] → r.result = .error (.fatal .failedToStart)) := by
  intro r
  have hterm : op.Status ≠ "PENDING" ∧ op.Status ≠ "RUNNING" := by
    rw [hdone]; decide
  have hr : r = _ := opLoop_at_terminal env opName waitingOps op later hwait hterm
  simp only [hdone, if_true] at hr
  cases he : op.Error with
  | none =>
    rw [he] at hr
    rw [hr]
    simp [Operation.subErrors, he, filterMap_opError_pollEvents]
  | some e =>
    rw [he] at hr
    rw [hr]
    simp only [List.filterMap_append, filterMap_opError_pollEvents,
      filterMap_opError_logOpError, Operation.subErrors, he]
    simp

/-- The amended C2 on `[RUNNING, DONE]` with two sub-errors: both are printed,
in order, and the run fails. -/
theorem opLoop_done_fails_iff_error_present_witness :
    (opLoop acmeEnv "operation-1" [
        .ok { Name := "operation-1", Status := "RUNNING", Error := none },
        .ok { Name := "operation-1", Status := "DONE",
              Error := some { Errors := ["QUOTA_EXCEEDED", "ZONE_RESOURCE_POOL_EXHAUSTED"] } }]
      ).trace.filterMap Event.opError? = ["QUOTA_EXCEEDED", "ZONE_RESOURCE_POOL_EXHAUSTED"] ∧
    (opLoop acmeEnv "operation-1" [
        .ok { Name := "operation-1", Status := "RUNNING", Error := none },
        .ok { Name := "operation-1", Status := "DONE",
              Error := some { Errors := ["QUOTA_EXCEEDED", "ZONE_RESOURCE_POOL_EXHAUSTED"] } }]
      ).result = .error (.fatal .failedToStart) :=
  ⟨(opLoop_done_fails_iff_error_present acmeEnv "operation-1"
      [{ Name := "operation-1", Status := "RUNNING", Error := none }]
      { Name := "operation-1", Status := "DONE",
        Error := some { Errors := ["QUOTA_EXCEEDED", "ZONE_RESOURCE_POOL_EXHAUSTED"] } } []
      (by decide) rfl).2.2.1,
   (opLoop_done_fails_iff_error_present acmeEnv "operation-1"
      [{ Name := "operation-1", Status := "RUNNING", Error := none }]
      { Name := "operation-1", Status := "DONE",
        Error := some { Errors := ["QUOTA_EXCEEDED", "ZONE_RESOURCE_POOL_EXHAUSTED"] } } []
      (by decide) rfl).2.2.2 (by decide)⟩

/-- C3: `innodbBufferPoolSize` is defined on every machine-type string and
returns 33554432 for "f1-micro", 67108864 for "g1-small" and 134217728 for
every other string. -/
theorem innodbBufferPoolSize_total (machType : String) :
    (machType = "f1-micro" → innodbBufferPoolSize machType = 33554432) ∧
    (machType = "g1-small" → innodbBufferPoolSize machType = 67108864) ∧
    (machType ≠ "f1-micro" → machType ≠ "g1-small" →
      innodbBufferPoolSize machType = 134217728) := by
  refine ⟨?_, ?_, ?_⟩
  · rintro rfl; decide
  · rintro rfl; decide
  · intro h1 h2
    simp [innodbBufferPoolSize, h1, h2]

/-- C3 on the two named machine types, the empty string and another type. -/
theorem innodbBufferPoolSize_total_witness :
    innodbBufferPoolSize "f1-micro" = 33554432 ∧
    innodbBufferPoolSize "g1-small" = 67108864 ∧
    innodbBufferPoolSize "" = 134217728 ∧
    innodbBufferPoolSize "n1-standard-1" = 134217728 :=
  ⟨(innodbBufferPoolSize_total "f1-micro").1 rfl,
   (innodbBufferPoolSize_total "g1-small").2.1 rfl,
   (innodbBufferPoolSize_total "").2.2 (by decide) (by decide),
   (innodbBufferPoolSize_total "n1-standard-1").2.2 (by decide) (by decide)⟩

/-- C4: the size check exits with the config-too-large message exactly when
the text is longer than 32768 bytes and passes exactly when it is not; a text
of 32768 bytes passes and a text of 32769 bytes is rejected. -/
theorem checkCloudConfig_limit (text : String) :
    ((checkCloudConfig text).result =
        .error (.fatal (.cloudConfigTooLarge (len text) 32768)) ↔ len text > 32768) ∧
    ((checkCloudConfig text).result = .ok () ↔ len text ≤ 32768) ∧
    (len text = 32768 → (checkCloudConfig text).result = .ok ()) ∧
    (len text = 32769 → (checkCloudConfig text).result =
        .error (.fatal (.cloudConfigTooLarge 32769 32768))) := by
  have hgt : len text > 32768 → (checkCloudConfig text).result =
      .error (.fatal (.cloudConfigTooLarge (len text) 32768)) := by
    intro h
    rw [checkCloudConfig_of_gt text h]
    rfl
  have hle : len text ≤ 32768 → (checkCloudConfig text).result = .ok () := by
    intro h
    rw [checkCloudConfig_of_le text h]
    rfl
  refine ⟨⟨?_, hgt⟩, ⟨?_, hle⟩, ?_, ?_⟩
  · intro h
    by_contra hc
    rw [hle (by omega)] at h
    cases h
  · intro h
    by_contra hc
    rw [hgt (by omega)] at h
    cases h
  · intro h
    exact hle (by omega)
  · intro h
    have h2 := hgt (by omega)
    rw [h] at h2
    exact h2

/-- C4 at the boundary: 32768 bytes pass, 32769 bytes are rejected. -/
theorem checkCloudConfig_limit_witness :
    (checkCloudConfig ⟨List.replicate 32768 'a'⟩).result = .ok () ∧
    (checkCloudConfig ⟨List.replicate 32769 'a'⟩).result =
        .error (.fatal (.cloudConfigTooLarge 32769 32768)) :=
  ⟨(checkCloudConfig_limit _).2.2.1 (len_replicate 32768),
   (checkCloudConfig_limit _).2.2.2 (len_replicate 32769)⟩

/-- C5, as stated, fails: in project `acme` with no existing bucket, when the
insert of the blob bucket is refused and its goroutine exits the process
before the other goroutine has sent anything, the config bucket is required
and not existing and yet no creation call is made for it. -/
theorem ensureBuckets_refused_insert_skips_other :
    acmeEnvBlobRefused.bucketsList = .ok [] ∧
    "acme-camlistore-config" ∈ needBucket acmeEnvBlobRefused.proj ∧
    (ensureBuckets acmeEnvBlobRefused).trace.filter Event.isBucketsInsert =
      [bucketInsertCall acmeEnvBlobRefused "acme-camlistore-blobs"] ∧
    ((ensureBuckets acmeEnvBlobRefused).trace.filter Event.isBucketsInsert).count
      (bucketInsertCall acmeEnvBlobRefused "acme-camlistore-config") = 0 ∧
    (ensureBuckets acmeEnvBlobRefused).result =
      .error (.fatal (.createBucketFailed "acme-camlistore-blobs" "forbidden")) := by
  refine ⟨rfl, by decide, by decide, by decide, rfl⟩

/-- C5, amended: once the listing has answered `items`, the names left in
`needBucket` are the required names that no listed bucket bears, each once;
whatever the goroutine schedule, `Buckets.Insert` calls are made only for
those names and at most one per name; when the bucket part completes, which
it does whenever no insert is refused, exactly one call has been made for
each of those names; and when both required names are listed nothing is left
and no insert call is made. -/
theorem ensureBuckets_creates_missing (env : Env) (items : List Bucket)
    (hlist : env.bucketsList = .ok items) :
    let need := needBucketAfter env.proj items
    let calls := (ensureBuckets env).trace.filter Event.isBucketsInsert
    (∀ name, need.count name =
      if name ∈ needBucket env.proj ∧ name ∉ items.map Bucket.Name then 1 else 0) ∧
    (∃ issued : List String, calls = issued.map (bucketInsertCall env) ∧
      issued.Subperm need) ∧
    (∀ name, calls.count (bucketInsertCall env name) ≤
      if name ∈ needBucket env.proj ∧ name ∉ items.map Bucket.Name then 1 else 0) ∧
    ((ensureBuckets env).result = .ok () →
      ∀ name, calls.count (bucketInsertCall env name) =
        if name ∈ needBucket env.proj ∧ name ∉ items.map Bucket.Name then 1 else 0) ∧
    ((∀ name ∈ need, ∃ b, env.bucketsInsert { Id := name, Name := name } = .ok b) →
      (ensureBuckets env).result = .ok ()) ∧
    (blobBucket env.proj ∈ items.map Bucket.Name →
      configBucket env.proj ∈ items.map Bucket.Name → need = [] ∧ calls = []) := by
  intro need calls
  have hcount : ∀ name, need.count name =
      if name ∈ needBucket env.proj ∧ name ∉ items.map Bucket.Name then 1 else 0 := by
    intro name
    have hnd : need.Nodup := by
      show (needBucketAfter env.proj items).Nodup
      rw [needBucketAfter_eq]
      exact (needBucket_nodup env.proj).filter _
    have hmem : name ∈ need ↔
        name ∈ needBucket env.proj ∧ name ∉ items.map Bucket.Name := by
      show name ∈ needBucketAfter env.proj items ↔ _
      rw [needBucketAfter_eq]
      simp [List.mem_filter]
    split_ifs with h
    · exact List.count_eq_one_of_mem hnd (hmem.2 h)
    · exact List.count_eq_zero_of_not_mem (fun hm => h (hmem.1 hm))
  obtain ⟨issued, htr, hsub, hperm, -⟩ := createBuckets_spec env need
  have hres : (ensureBuckets env).result = (createBuckets env need).result := by
    rw [ensureBuckets_eq env items hlist]
  have hcalls : calls = issued.map (bucketInsertCall env) := by
    show ((ensureBuckets env).trace.filter Event.isBucketsInsert) = _
    rw [ensureBuckets_eq env items hlist]
    show List.filter Event.isBucketsInsert
      (Event.bucketsList env.proj :: (createBuckets env need).trace) = _
    rw [htr, List.filter_cons, filter_isBucketsInsert_calls]
    rfl
  have hcc : ∀ name, calls.count (bucketInsertCall env name) = issued.count name := by
    intro name
    rw [hcalls, List.count_map_of_injective _ _ (bucketInsertCall_injective env)]
  refine ⟨hcount, ⟨issued, hcalls, hsub⟩, ?_, ?_, ?_, ?_⟩
  · intro name
    rw [hcc name, ← hcount name]
    exact hsub.count_le name
  · intro hok name
    rw [hcc name, ← hcount name]
    exact (hperm (hres ▸ hok)).count_eq name
  · intro hins
    obtain ⟨issued2, -, hc⟩ := createBuckets_ok env need hins
    rw [hres, hc]
  · intro hb hc
    have hn : need = [] := by
      show needBucketAfter env.proj items = []
      rw [needBucketAfter_eq, needBucket_eq]
      simp only [List.filter_cons, hb, hc, not_true_eq_false, decide_False, List.filter_nil]
      simp
    refine ⟨hn, ?_⟩
    rw [hn] at hsub
    rw [hcalls, List.subperm_nil.1 hsub]
    rfl

/-- The amended C5 on project `acme`: with the blob bucket already listed the
config bucket gets exactly one insert call and the blob bucket none, and with
both listed no insert call is made. -/
theorem ensureBuckets_creates_missing_witness :
    ((ensureBuckets { acmeEnv with bucketsList := .ok [
        { Id := "acme-camlistore-blobs", Name := "acme-camlistore-blobs" }] }
      ).trace.filter Event.isBucketsInsert).count
        (bucketInsertCall { acmeEnv with bucketsList := .ok [
          { Id := "acme-camlistore-blobs", Name := "acme-camlistore-blobs" }] }
          "acme-camlistore-config") = 1 ∧
    ((ensureBuckets { acmeEnv with bucketsList := .ok [
        { Id := "acme-camlistore-blobs", Name := "acme-camlistore-blobs" }] }
      ).trace.filter Event.isBucketsInsert).count
        (bucketInsertCall { acmeEnv with bucketsList := .ok [
          { Id := "acme-camlistore-blobs", Name := "acme-camlistore-blobs" }] }
          "acme-camlistore-blobs") = 0 ∧
    (ensureBuckets { acmeEnv with bucketsList := .ok [
        { Id := "acme-camlistore-config", Name := "acme-camlistore-config" },
        { Id := "unrelated", Name := "unrelated" },
        { Id := "acme-camlistore-blobs", Name := "acme-camlistore-blobs" }] }
      ).trace.filter Event.isBucketsInsert = [] :=
  ⟨((ensureBuckets_creates_missing
      { acmeEnv with bucketsList := .ok [
        { Id := "acme-camlistore-blobs", Name := "acme-camlistore-blobs" }] }
      [{ Id := "acme-camlistore-blobs", Name := "acme-camlistore-blobs" }] rfl).2.2.2.1
      ((ensureBuckets_creates_missing
        { acmeEnv with bucketsList := .ok [
          { Id := "acme-camlistore-blobs", Name := "acme-camlistore-blobs" }] }
        [{ Id := "acme-camlistore-blobs", Name := "acme-camlistore-blobs" }] rfl).2.2.2.2.1
        (fun name _ => ⟨{ Id := name, Name := name }, rfl⟩))
      "acme-camlistore-config").trans (by decide),
   Nat.le_zero.1 (((ensureBuckets_creates_missing
      { acmeEnv with bucketsList := .ok [
        { Id := "acme-camlistore-blobs", Name := "acme-camlistore-blobs" }] }
      [{ Id := "acme-camlistore-blobs", Name := "acme-camlistore-blobs" }] rfl).2.2.1
      "acme-camlistore-blobs").trans (by decide)),
   ((ensureBuckets_creates_missing
      { acmeEnv with bucketsList := .ok [
        { Id := "acme-camlistore-config", Name := "acme-camlistore-config" },
        { Id := "unrelated", Name := "unrelated" },
        { Id := "acme-camlistore-blobs", Name := "acme-camlistore-blobs" }] }
      [{ Id := "acme-camlistore-config", Name := "acme-camlistore-config" },
       { Id := "unrelated", Name := "unrelated" },
       { Id := "acme-camlistore-blobs", Name := "acme-camlistore-blobs" }] rfl).2.2.2.2.2
      (by decide) (by decide)).2⟩

/-- C6: for every project id, the empty one included, `needBucket` holds
exactly two distinct names, the project id followed by "-camlistore-blobs"
and by "-camlistore-config", and the project id is a prefix of both. -/
theorem needBucket_two_prefixed (p : String) :
    (needBucket p).length = 2 ∧ (needBucket p).Nodup ∧
    (∀ name, name ∈ needBucket p ↔
      name = p ++ "-camlistore-blobs" ∨ name = p ++ "-camlistore-config") ∧
    (∀ name, name ∈ needBucket p → stringsHasPrefix name p) := by
  refine ⟨?_, needBucket_nodup p, ?_, ?_⟩
  · rw [needBucket_eq]; rfl
  · intro name
    rw [needBucket_eq]
    simp [blobBucket, configBucket]
  · intro name hn
    rw [needBucket_eq] at hn
    simp [blobBucket, configBucket] at hn
    rcases hn with rfl | rfl <;> exact ⟨_, rfl⟩

/-- C6 on the project ids "acme" and "". -/
theorem needBucket_two_prefixed_witness :
    stringsHasPrefix "acme-camlistore-blobs" "acme" ∧
    stringsHasPrefix "-camlistore-config" "" :=
  ⟨(needBucket_two_prefixed "acme").2.2.2 "acme-camlistore-blobs"
      (((needBucket_two_prefixed "acme").2.2.1 _).2 (Or.inl (by decide))),
   (needBucket_two_prefixed "").2.2.2 "-camlistore-config"
      (((needBucket_two_prefixed "").2.2.1 _).2 (Or.inr (by decide)))⟩

/-- C7, as stated, fails for the empty project id: with no existing bucket
and no ssh key, `main` prints its hints and returns without any bucket or
instance insert call. -/
theorem main_empty_project_issues_nothing :
    ({ acmeEnv with proj := "" } : Env).bucketsList = .ok [] ∧
    ({ acmeEnv with proj := "" } : Env).sshPub = "" ∧
    (main { acmeEnv with proj := "" }).trace = [] ∧
    (main { acmeEnv with proj := "" }).result = .ok .missingProject := by
  refine ⟨rfl, rfl, ?_, ?_⟩
  · simp [main, acmeEnv]
  · simp [main, acmeEnv]

/-- C7, amended: for every non-empty project id, in a run without `--help`
whose credentials are in place, with no existing bucket, no ssh key and bucket
inserts that succeed, the insert calls of the run are the two bucket inserts,
for the blob and the config bucket, followed by exactly one instance insert;
the metadata of that instance holds `camlistore-blob-bucket` and
`camlistore-config-bucket` with the two `gs://` names. -/
theorem main_creates_buckets_then_instance (env : Env) (hhelp : env.help = false)
    (hproj : env.proj ≠ "") (hcred : env.credentialsOk) (hkey : env.sshPub = "")
    (hlist : env.bucketsList = .ok [])
    (hins : ∀ b, ∃ r, env.bucketsInsert b = .ok r) :
    let inst := buildInstance env (cloudConfigFor env.mach)
    (∃ calls, calls.Perm
        [bucketInsertCall env (env.proj ++ "-camlistore-blobs"),
         bucketInsertCall env (env.proj ++ "-camlistore-config")] ∧
      (main env).trace.filter Event.isInsert =
        calls ++ [Event.instancesInsert env.proj env.zone inst]) ∧
    { Key := "camlistore-blob-bucket",
      Value := "gs://" ++ (env.proj ++ "-camlistore-blobs") } ∈ inst.Metadata.Items ∧
    { Key := "camlistore-config-bucket",
      Value := "gs://" ++ (env.proj ++ "-camlistore-config") } ∈ inst.Metadata.Items := by
  intro inst
  obtain ⟨issued, hperm, hens⟩ := ensureBuckets_ok env [] hlist hins
  rw [needBucketAfter_nil, needBucket_eq] at hperm
  refine ⟨⟨issued.map (bucketInsertCall env), hperm.map _, ?_⟩, ?_, ?_⟩
  · obtain ⟨tr, htr, hmain⟩ := main_of_credentialsOk env hhelp hproj hcred
    obtain ⟨rest, hprov, hrest⟩ := provision_trace env (cloudConfigFor env.mach)
    have hcalls : (issued.map (bucketInsertCall env)).filter Event.isInsert =
        issued.map (bucketInsertCall env) := by
      apply List.filter_eq_self.2
      intro e he
      obtain ⟨n, -, rfl⟩ := List.mem_map.1 he
      rfl
    rw [hmain, appendSSHKey_none env _ hkey, hens]
    simp only [Run.mk_ok_andThen, Run.ret_andThen, hprov, List.filter_append,
      filter_false_of_forall htr, List.nil_append, List.filter_cons, hcalls,
      filter_false_of_forall hrest]
    simp [Event.isInsert, Event.isBucketsInsert, Event.isInstancesInsert, inst]
  · simp [inst, buildInstance, localMySQL, blobBucket]
  · simp [inst, buildInstance, localMySQL, configBucket]

/-- The amended C7 on project `acme`. -/
theorem main_creates_buckets_then_instance_witness :
    (∃ calls, calls.Perm
        [bucketInsertCall acmeEnv ("acme" ++ "-camlistore-blobs"),
         bucketInsertCall acmeEnv ("acme" ++ "-camlistore-config")] ∧
      (main acmeEnv).trace.filter Event.isInsert =
        calls ++ [Event.instancesInsert "acme" "us-central1-a"
          (buildInstance acmeEnv (cloudConfigFor "g1-small"))]) ∧
    { Key := "camlistore-blob-bucket",
      Value := "gs://" ++ ("acme" ++ "-camlistore-blobs") } ∈
        (buildInstance acmeEnv (cloudConfigFor "g1-small")).Metadata.Items ∧
    { Key := "camlistore-config-bucket",
      Value := "gs://" ++ ("acme" ++ "-camlistore-config") } ∈
        (buildInstance acmeEnv (cloudConfigFor "g1-small")).Metadata.Items :=
  main_creates_buckets_then_instance acmeEnv rfl (by decide) acmeEnv_credentialsOk rfl rfl
    (fun b => ⟨b, rfl⟩)

/-- C8: for every machine type the text after the `strings.Replace` is the
template with its placeholder "INNODB_BUFFER_POOL_SIZE=NNN", which sits at
offset 1524, replaced by "INNODB_BUFFER_POOL_SIZE=" followed by the decimal
buffer pool size; it contains that field, it no longer contains the
placeholder, and for "f1-micro" it contains
"INNODB_BUFFER_POOL_SIZE=33554432". -/
theorem cloudConfigFor_substitutes (m : String) :
    cloudConfigTemplate.data = cloudConfigTemplate.data.take 1524 ++
      "INNODB_BUFFER_POOL_SIZE=NNN".data ++ cloudConfigTemplate.data.drop 1551 ∧
    (cloudConfigFor m).data = cloudConfigTemplate.data.take 1524 ++
      ("INNODB_BUFFER_POOL_SIZE=" ++ strconvItoa (innodbBufferPoolSize m)).data ++
      cloudConfigTemplate.data.drop 1551 ∧
    stringsContains (cloudConfigFor m)
      ("INNODB_BUFFER_POOL_SIZE=" ++ strconvItoa (innodbBufferPoolSize m)) ∧
    ¬ stringsContains (cloudConfigFor m) "INNODB_BUFFER_POOL_SIZE=NNN" ∧
    stringsContains (cloudConfigFor "f1-micro") "INNODB_BUFFER_POOL_SIZE=33554432" := by
  have hm := renderWith_facts _ (innodbBufferPoolSize_mem m)
  have hf := renderWith_facts _ (innodbBufferPoolSize_mem "f1-micro")
  rw [← cloudConfigFor_eq] at hm hf
  refine ⟨cloudConfigTemplate_split, hm.1, ?_, hm.2.1, ?_⟩
  · exact ⟨_, _, hm.1.symm⟩
  · exact ⟨_, _, hf.1.symm⟩

/-- C9: the size check is made on the substituted text and always passes, and
only then is the ssh key block appended: with a key file the `user-data` of
the instance is the checked text followed by "\nssh_authorized_keys:\n    - ",
the trimmed key and "\n", and a run that reaches the instance insert sends
exactly that instance; for some key the `user-data` sent is longer than
32768 bytes. -/
theorem sshKey_appended_after_size_check :
    (∀ (env : Env) (contents : String),
      env.sshPub ≠ "" → env.ioutilReadFile env.sshPub = .ok contents →
      let validated := cloudConfigFor env.mach
      let userData := validated ++ "\nssh_authorized_keys:\n    - " ++
        stringsTrimSpace (stringsTrimSpace contents) ++ "\n"
      (checkCloudConfig validated).result = .ok () ∧
      (appendSSHKey env validated).result = .ok userData ∧
      { Key := "user-data", Value := userData } ∈
        (buildInstance env userData).Metadata.Items ∧
      (∀ items : List Bucket, env.help = false → env.proj ≠ "" → env.credentialsOk →
        env.bucketsList = .ok items → (∀ b, ∃ r, env.bucketsInsert b = .ok r) →
        (main env).trace.filter Event.isInstancesInsert =
          [Event.instancesInsert env.proj env.zone (buildInstance env userData)])) ∧
    (∃ (env : Env) (userData : String),
      env.sshPub ≠ "" ∧
      (checkCloudConfig (cloudConfigFor env.mach)).result = .ok () ∧
      len userData > 32768 ∧
      Event.instancesInsert env.proj env.zone (buildInstance env userData) ∈
        (main env).trace ∧
      { Key := "user-data", Value := userData } ∈
        (buildInstance env userData).Metadata.Items) := by
  have huniv : ∀ (env : Env) (contents : String),
      env.sshPub ≠ "" → env.ioutilReadFile env.sshPub = .ok contents →
      let validated := cloudConfigFor env.mach
      let userData := validated ++ "\nssh_authorized_keys:\n    - " ++
        stringsTrimSpace (stringsTrimSpace contents) ++ "\n"
      (checkCloudConfig validated).result = .ok () ∧
      (appendSSHKey env validated).result = .ok userData ∧
      { Key := "user-data", Value := userData } ∈
        (buildInstance env userData).Metadata.Items ∧
      (∀ items : List Bucket, env.help = false → env.proj ≠ "" → env.credentialsOk →
        env.bucketsList = .ok items → (∀ b, ∃ r, env.bucketsInsert b = .ok r) →
        (main env).trace.filter Event.isInstancesInsert =
          [Event.instancesInsert env.proj env.zone (buildInstance env userData)]) := by
    intro env contents hkey hread validated userData
    have hu : userData = cloudConfigFor env.mach ++
        sshAuthorizedKeys (stringsTrimSpace (stringsTrimSpace contents)) := by
      simp only [userData, validated, sshAuthorizedKeys, String.append_assoc]
    refine ⟨?_, ?_, ?_, ?_⟩
    · rw [checkCloudConfig_cloudConfigFor]; rfl
    · rw [hu, appendSSHKey_some env _ contents hkey hread]
    · simp [buildInstance, localMySQL]
    · intro items hhelp hproj hcred hlist hins
      rw [hu]
      exact main_with_key env contents items hhelp hproj hcred hkey hread hlist hins
  refine ⟨huniv, ?_⟩
  have h := huniv (acmeEnvWithKey ⟨List.replicate 32768 'a'⟩) ⟨List.replicate 32768 'a'⟩
    (by decide) rfl
  have hrun := h.2.2.2 [] rfl (by decide) (acmeEnvWithKey_credentialsOk _) rfl
    (fun b => ⟨b, rfl⟩)
  refine ⟨acmeEnvWithKey ⟨List.replicate 32768 'a'⟩, _, by decide, h.1, ?_,
    mem_of_filter_eq_singleton hrun, h.2.2.1⟩
  have hnl : len "\n" = 1 := by decide
  simp only [stringsTrimSpace_replicate, len_append, len_replicate, hnl]
  omega

/-- C9 on project `acme` with a short key file: the one instance insert of
the run carries the checked text followed by the key block. -/
theorem sshKey_appended_after_size_check_witness :
    (main (acmeEnvWithKey "ssh-rsa AAAAB3NzaC1yc2E operator@example\n")).trace.filter
        Event.isInstancesInsert =
      [Event.instancesInsert "acme" "us-central1-a"
        (buildInstance (acmeEnvWithKey "ssh-rsa AAAAB3NzaC1yc2E operator@example\n")
          (cloudConfigFor "g1-small" ++ "\nssh_authorized_keys:\n    - " ++
            stringsTrimSpace (stringsTrimSpace "ssh-rsa AAAAB3NzaC1yc2E operator@example\n") ++
            "\n"))] :=
  (sshKey_appended_after_size_check.1
    (acmeEnvWithKey "ssh-rsa AAAAB3NzaC1yc2E operator@example\n")
    "ssh-rsa AAAAB3NzaC1yc2E operator@example\n" (by decide) rfl).2.2.2 []
    rfl (by decide) (acmeEnvWithKey_credentialsOk _) rfl (fun b => ⟨b, rfl⟩)

/-- C10: for every machine type the buffer pool size is one of three values,
the length of the substituted text is the length of the template, 2400 bytes,
with "NNN" exchanged for the decimal digits of that value, it is at most 2406
and so at most 32768 bytes, and the size check passes; no run of `main` ends
in the config-too-large exit. -/
theorem cloudConfig_fits :
    (∀ m : String,
      innodbBufferPoolSize m ∈ [33554432, 67108864, 134217728] ∧
      len (cloudConfigFor m) =
        len cloudConfigTemplate - len "NNN" + len (strconvItoa (innodbBufferPoolSize m)) ∧
      len cloudConfigTemplate = 2400 ∧
      len (cloudConfigFor m) ≤ 2406 ∧
      len (cloudConfigFor m) ≤ 32768 ∧
      (checkCloudConfig (cloudConfigFor m)).result = .ok ()) ∧
    (∀ (env : Env) (n limit : Nat),
      (main env).result ≠ .error (.fatal (.cloudConfigTooLarge n limit))) := by
  refine ⟨fun m => ⟨innodbBufferPoolSize_mem m, ?_, len_cloudConfigTemplate,
    len_cloudConfigFor_le m, ?_, ?_⟩, ?_⟩
  · have hm := renderWith_facts _ (innodbBufferPoolSize_mem m)
    rw [← cloudConfigFor_eq] at hm
    exact hm.2.2.1
  · have hle := len_cloudConfigFor_le m
    omega
  · rw [checkCloudConfig_cloudConfigFor]; rfl
  · intro env n limit h
    exact main_not_tooLarge env ⟨n, limit, h⟩

end Create
